import Mathlib

/-!
# UB-ANC Agent (hover / power measurement): mission state machine

A shallow embedding of `agent/UBAgent.cpp` (with `UBAgent.h` and
`UBConfig.h`).  Every slot of `UBAgent` is a function from the agent's fields
and the values it reads from its collaborators to the new fields and the list
of calls it makes on the collaborators, in program order.  A slot that
dereferences `m_mav` while it is `nullptr` has no result (`none`).

Conventions
* `double` values read from the vehicle are `Dbl`: a rational, an infinity or
  NaN, with the IEEE comparison rules (every comparison with NaN is false).
* Arithmetic in `double` is IEEE 754 binary64: the exact result rounded to the
  nearest `double`, ties to even (`roundDouble`).
* `int` fields are `Int`; `tick++` wraps around at `INT_MAX` as two's complement
  arithmetic does (`wrapInt`).
* `MISSION_TRACK_DELAY` (seconds per tick) is used by the source but defined in
  no file of the repository; it is a parameter `delay : ℚ` of the tick handlers,
  the exact value of the constant.
-/

namespace UBAgent

/-! ## Constants of `UBConfig.h` -/

/-- The macro `POINT_ZONE` of `UBConfig.h`. -/
def POINT_ZONE : Int := 1

/-- The macro `TAKEOFF_ALT` of `UBConfig.h`. -/
def TAKEOFF_ALT : Int := 5

/-- The macro `BROADCAST_ID` of `UBConfig.h`. -/
def BROADCAST_ID : Nat := 255

/-! ## Values of type `double` -/

/-- A value of type `double`, as far as comparisons see it. -/
inductive Dbl where
  | nan : Dbl
  | ninf : Dbl
  | pinf : Dbl
  | fin (q : ℚ) : Dbl
  deriving DecidableEq

/-- The C++ comparison `a > c` of a `double` with a finite constant. -/
def Dbl.gt (a : Dbl) (c : ℚ) : Bool :=
  match a with
  | Dbl.nan => false
  | Dbl.ninf => false
  | Dbl.pinf => true
  | Dbl.fin q => decide (c < q)

/-- The C++ comparison `a < c` of a `double` with a finite constant. -/
def Dbl.lt (a : Dbl) (c : ℚ) : Bool :=
  match a with
  | Dbl.nan => false
  | Dbl.ninf => true
  | Dbl.pinf => false
  | Dbl.fin q => decide (q < c)

/-- The C++ comparison `a <= c` of a `double` with a finite constant. -/
def Dbl.le (a : Dbl) (c : ℚ) : Bool :=
  match a with
  | Dbl.nan => false
  | Dbl.ninf => true
  | Dbl.pinf => false
  | Dbl.fin q => decide (q ≤ c)

/-- The C++ comparison `a >= c` of a `double` with a finite constant. -/
def Dbl.ge (a : Dbl) (c : ℚ) : Bool :=
  match a with
  | Dbl.nan => false
  | Dbl.ninf => false
  | Dbl.pinf => true
  | Dbl.fin q => decide (c ≤ q)

/-- The integer nearest to `x`, the even one of the two when `x` lies half way
between them. -/
def roundHalfEven (x : ℚ) : Int :=
  if x - ⌊x⌋ < 1 / 2 then ⌊x⌋
  else if 1 / 2 < x - ⌊x⌋ then ⌊x⌋ + 1
  else if ⌊x⌋ % 2 = 0 then ⌊x⌋ else ⌊x⌋ + 1

/-- The result of a `double` operation whose exact value is `q`: the nearest
binary64 number, ties to even.  The significand has 53 bits, the least exponent
is `-1022` (below it the spacing stays `2 ^ (-1074)`), and a result that rounds
to `2 ^ 1024` or more is an infinity. -/
def roundDouble (q : ℚ) : Dbl :=
  if q = 0 then Dbl.fin 0
  else
    let quantum : ℚ := 2 ^ (max (Int.log 2 |q|) (-1022) - 52)
    let v : ℚ := (roundHalfEven (|q| / quantum) : ℚ) * quantum
    if (2 : ℚ) ^ (1024 : ℕ) ≤ v then (if 0 < q then Dbl.pinf else Dbl.ninf)
    else Dbl.fin (if 0 < q then v else -v)

/-- The value an `int` holds after an operation whose exact result is `x`: the
result modulo `2 ^ 32` in the range from `INT_MIN` to `INT_MAX`. -/
def wrapInt (x : Int) : Int :=
  (x + 2 ^ 31) % 2 ^ 32 - 2 ^ 31

/-- The conversion of a `double` to `int`: the fraction is dropped; there is no
value when the `double` is not finite or the result does not fit an `int`. -/
def doubleToInt (a : Dbl) : Option Int :=
  match a with
  | Dbl.fin q =>
    let t : Int := if 0 ≤ q then ⌊q⌋ else ⌈q⌉
    if -2 ^ 31 ≤ t ∧ t ≤ 2 ^ 31 - 1 then some t else none
  | _ => none

/-! ## Data model -/

/-- The mission phase: the enumerators the `.cpp` file switches on
(`UBAgent.h` spells them `STAGE_*`). -/
inductive EMissionState where
  | STATE_IDLE
  | STATE_TAKEOFF
  | STATE_MISSION
  | STATE_LAND
  deriving DecidableEq, Repr

open EMissionState

/-- The struct `SMissionData` of `UBAgent.h`, with the member
`previousFlightMode` that `UBAgent.cpp` reads and writes. -/
structure SMissionData where
  stage : Int
  tick : Int
  /-- Modelled from the spec: the declaration of `previousFlightMode` is missing
  from the header `UBAgent.h`; the spec gives it as a string that is
  overwritten on every flight-mode notification. -/
  previousFlightMode : String
  deriving DecidableEq, Repr

/-- The method `SMissionData::reset()` of `UBAgent.h`: it assigns `stage` and
`tick` only. -/
def SMissionData.reset (d : SMissionData) : SMissionData :=
  { d with stage := 0, tick := 0 }

/-- A `Vehicle` object: its address and the value of `id()`. -/
structure Vehicle where
  ptr : Nat
  id : Nat
  deriving DecidableEq, Repr

/-- The C++ test `a == b` on two `Vehicle*` values (`none` is `nullptr`). -/
def ptrEq (a b : Option Vehicle) : Bool :=
  match a, b with
  | none, none => true
  | some x, some y => decide (x.ptr = y.ptr)
  | _, _ => false

/-- The fields of `UBAgent` that the slots read or write. -/
structure Agent where
  m_mission_state : EMissionState
  m_mission_data : SMissionData
  m_mav : Option Vehicle
  /-- Modelled from the spec: the class `UBNetwork` is missing from the sources; this
  is the Network channel's own address, the value last passed to
  `m_net->setID`. -/
  netID : Nat
  deriving DecidableEq, Repr

/-- What a slot reads from outside the agent while it runs: the telemetry of
the vehicle `m_mav` points to, and the wall clock. -/
structure Env where
  altitudeRelative : Dbl
  guidedMode : Bool
  armed : Bool
  defaultComponentId : Int
  currentMSecsSinceEpoch : Int

/-- Modelled from the spec: the class `UBPower` is missing from the sources; these
are the kinds `Start | Info | Stop` of a `PowerCommand`, under the names the
source calls them by (`UBPower::PWR_START`, `PWR_INFO`, `PWR_STOP`). -/
inductive PwrKind where
  | PWR_START
  | PWR_INFO
  | PWR_STOP
  deriving DecidableEq, Repr

/-- The MAVLink command identifiers used by the source. -/
inductive MavCmd where
  | MAV_CMD_NAV_TAKEOFF
  deriving DecidableEq, Repr

/-- The two vehicle signals the agent subscribes to. -/
inductive Signal where
  | armedChanged
  | flightModeChanged
  deriving DecidableEq, Repr

/-- A call the agent makes on one of its collaborators. -/
inductive Effect where
  | qInfo (parts : List String)
  | qWarning (parts : List String)
  | connectSig (v : Vehicle) (sig : Signal)
  | disconnectSig (v : Vehicle) (sig : Signal)
  | netSetID (id : Nat)
  | sendMavCommand (component : Int) (command : MavCmd) (showError : Bool) (params : List Int)
  | setArmed (armed : Bool)
  | guidedModeLand
  | powerSendData (kind : PwrKind) (payload : String)
  deriving DecidableEq, Repr

/-- The calls that command the vehicle. -/
def Effect.isVehicleCommand : Effect → Bool
  | Effect.sendMavCommand _ _ _ _ => true
  | Effect.setArmed _ => true
  | Effect.guidedModeLand => true
  | _ => false

/-- The calls that send a message on the Network or Power channel. -/
def Effect.isMessage : Effect → Bool
  | Effect.powerSendData _ _ => true
  | _ => false

/-- The result of a slot: `none` when it dereferences a null `m_mav`. -/
abbrev Result := Option (Agent × List Effect)

/-! ## The slots of `UBAgent.cpp` -/

/-- The slot `UBAgent::setMAV`. -/
def setMAV (mav : Option Vehicle) (s : Agent) : Agent × List Effect :=
  let e1 : List Effect :=
    match s.m_mav with
    | some old => [Effect.disconnectSig old Signal.armedChanged,
                   Effect.disconnectSig old Signal.flightModeChanged]
    | none => []
  let e2 : List Effect :=
    match mav with
    | some new => [Effect.connectSig new Signal.armedChanged,
                   Effect.connectSig new Signal.flightModeChanged]
    | none => []
  ({ s with m_mav := mav }, e1 ++ e2)

/-- The slot `UBAgent::vehicleAddedEvent`. -/
def vehicleAddedEvent (mav : Option Vehicle) (s : Agent) : Result :=
  match mav with
  | none => some (s, [])
  | some v =>
    if ptrEq s.m_mav (some v) then some (s, [])
    else
      let r := setMAV (some v) s
      some ({ r.1 with netID := v.id },
            r.2 ++ [Effect.netSetID v.id,
                    Effect.qInfo ["New MAV connected with ID: ", toString v.id]])

/-- The slot `UBAgent::vehicleRemovedEvent`. -/
def vehicleRemovedEvent (mav : Option Vehicle) (s : Agent) : Result :=
  match mav with
  | none => some (s, [])
  | some v =>
    if !(ptrEq s.m_mav (some v)) then some (s, [])
    else
      let r := setMAV none s
      some ({ r.1 with netID := 0 },
            r.2 ++ [Effect.netSetID 0,
                    Effect.qInfo ["MAV disconnected with ID: ", toString v.id]])

/-- The slot `UBAgent::armedChangedEvent`. -/
def armedChangedEvent (env : Env) (armed : Bool) (s : Agent) : Result :=
  if !armed then
    some ({ s with m_mission_state := STATE_IDLE }, [])
  else
    match s.m_mav with
    | none => none
    | some _ =>
      if env.altitudeRelative.gt (POINT_ZONE : Int) then
        some (s, [Effect.qWarning ["The mission can not start while the drone is airborne!"]])
      else if !env.guidedMode then
        some (s, [Effect.qWarning
          ["The mission can not start while the drone is not in Guided mode!"]])
      else
        some ({ s with m_mission_data := s.m_mission_data.reset,
                       m_mission_state := STATE_TAKEOFF },
              [Effect.qInfo ["Mission starts..."],
               Effect.sendMavCommand env.defaultComponentId MavCmd.MAV_CMD_NAV_TAKEOFF true
                 [0, 0, 0, 0, 0, 0, TAKEOFF_ALT]])

/-- The slot `UBAgent::flightModeChangedEvent`; `&&` evaluates `m_mav->armed()`
only when the two string tests hold. -/
def flightModeChangedEvent (env : Env) (mode : String) (s : Agent) : Result :=
  let done : List Effect → Result := fun es =>
    some ({ s with m_mission_data := { s.m_mission_data with previousFlightMode := mode } },
          Effect.qInfo [mode] :: es)
  if s.m_mission_data.previousFlightMode = "Land" ∧ mode = "Guided" then
    match s.m_mav with
    | none => none
    | some _ => if !env.armed then done [Effect.setArmed true] else done []
  else done []

/-- The slot `UBAgent::dataReadyEvent`, connected to both channels. -/
def dataReadyEvent (srcID : Fin 256) (data : String) (s : Agent) : Result :=
  some (s, [Effect.qInfo ["Data received from srcID=", toString srcID.val, ":\n", data]])

/-- The method `UBAgent::stateIdle`. -/
def stateIdle (s : Agent) : Result :=
  some (s, [])

/-- The method `UBAgent::stateTakeoff`. -/
def stateTakeoff (env : Env) (s : Agent) : Result :=
  match s.m_mav with
  | none => none
  | some _ =>
    if env.altitudeRelative.gt ((TAKEOFF_ALT - POINT_ZONE : Int) : ℚ) then
      some ({ s with m_mission_data := { s.m_mission_data with stage := 0 },
                     m_mission_state := STATE_MISSION },
            [Effect.qInfo ["Takeoff completed."]])
    else some (s, [])

/-- The method `UBAgent::stateLand`. -/
def stateLand (env : Env) (s : Agent) : Result :=
  match s.m_mav with
  | none => none
  | some _ =>
    if env.altitudeRelative.lt (POINT_ZONE : Int) then
      some ({ s with m_mission_state := STATE_IDLE }, [Effect.qInfo ["Land completed."]])
    else some (s, [])

/-- The assignment `now = QDateTime::currentMSecsSinceEpoch()` to an
`unsigned int`: the low 32 bits. -/
def nowOf (env : Env) : Nat :=
  (env.currentMSecsSinceEpoch % (2 ^ 32 : Int)).toNat

/-- Three decimal digits, zero padded. -/
def pad3 (n : Nat) : String :=
  (if n < 10 then "00" else if n < 100 then "0" else "") ++ toString n

/-- The bytes built in `info`: `number(now/1000.0, (char) f, 3)`, the text
`" The tick is: "` and `number(tick)`. -/
def infoPayload (now : Nat) (tick : Int) : String :=
  toString (now / 1000) ++ "." ++ pad3 (now % 1000) ++ " The tick is: " ++ toString tick

/-- The value of the expression `20 * 1.0 / MISSION_TRACK_DELAY`: the product
`20.0` is exact and the quotient is rounded to a `double`; a zero delay makes it
`+inf`. -/
def hoverQuotient (delay : ℚ) : Dbl :=
  if delay = 0 then Dbl.pinf else roundDouble (20 * 1 / delay)

/-- The test `m_mission_data.tick >= (20 * 1.0 / MISSION_TRACK_DELAY)`: the `int`
is converted to `double` without loss and compared with the quotient. -/
def hoverDone (delay : ℚ) (tick : Int) : Bool :=
  (hoverQuotient delay).le (tick : ℚ)

/-- The method `UBAgent::stateMission`: the stage 0 block falls through into the
stage 1 block. -/
def stateMission (delay : ℚ) (env : Env) (s : Agent) : Result :=
  let now := nowOf env
  let stage0 := s.m_mission_data.stage
  let stage1 := if stage0 = 0 then stage0 + 1 else stage0
  let e1 : List Effect :=
    if stage0 = 0 then
      [Effect.qInfo ["Starting measurement"], Effect.powerSendData PwrKind.PWR_START ""]
    else []
  if stage1 = 1 then
    let tick := wrapInt (s.m_mission_data.tick + 1)
    let e2 := [Effect.powerSendData PwrKind.PWR_INFO (infoPayload now tick)]
    if hoverDone delay tick then
      match s.m_mav with
      | none => none
      | some _ =>
        some ({ s with m_mission_data := { s.m_mission_data with stage := stage1 + 1, tick := tick },
                       m_mission_state := STATE_LAND },
              e1 ++ e2 ++ [Effect.qInfo ["Finishing measurement and landing"],
                           Effect.powerSendData PwrKind.PWR_STOP "",
                           Effect.guidedModeLand])
    else
      some ({ s with m_mission_data := { s.m_mission_data with stage := stage1, tick := tick } },
            e1 ++ e2)
  else
    some ({ s with m_mission_data := { s.m_mission_data with stage := stage1 } }, e1)

/-- The slot `UBAgent::missionTracker`, run at every timeout of `m_timer`. -/
def missionTracker (delay : ℚ) (env : Env) (s : Agent) : Result :=
  match s.m_mission_state with
  | STATE_IDLE => stateIdle s
  | STATE_TAKEOFF => stateTakeoff env s
  | STATE_MISSION => stateMission delay env s
  | STATE_LAND => stateLand env s

/-! ## Events -/

/-- The signals delivered to the agent. -/
inductive Event where
  | vehicleAdded (mav : Option Vehicle)
  | vehicleRemoved (mav : Option Vehicle)
  | armedChanged (armed : Bool)
  | flightModeChanged (mode : String)
  | dataReady (srcID : Fin 256) (data : String)
  | timeout

/-- Dispatch of one signal to its slot. -/
def step (delay : ℚ) (env : Env) (e : Event) (s : Agent) : Result :=
  match e with
  | Event.vehicleAdded mav => vehicleAddedEvent mav s
  | Event.vehicleRemoved mav => vehicleRemovedEvent mav s
  | Event.armedChanged armed => armedChangedEvent env armed s
  | Event.flightModeChanged mode => flightModeChangedEvent env mode s
  | Event.dataReady srcID data => dataReadyEvent srcID data s
  | Event.timeout => missionTracker delay env s

/-- The signals of a list delivered in order, each with what its slot reads.
The result is the final agent and, for each signal in order, the calls its slot
made; there is no result when one of the slots has none. -/
def run (delay : ℚ) : List (Env × Event) → Agent → Option (Agent × List (List Effect))
  | [], s => some (s, [])
  | (env, e) :: rest, s =>
    match step delay env e s with
    | none => none
    | some (s1, calls) =>
      match run delay rest s1 with
      | none => none
      | some (s2, trace) => some (s2, calls :: trace)

/-! ## Runs of scheduler ticks -/

/-- The first `n` timeouts of `m_timer`; the `k`-th one (counted from 1) reads
`env k`. -/
def ticks (env : ℕ → Env) (n : ℕ) : List (Env × Event) :=
  (List.range n).map (fun i => (env (i + 1), Event.timeout))

/-- The number of ticks of the hover: the least whole number that is at least
the quotient the source computes, `0` when that quotient is not finite. -/
def hoverTicks (delay : ℚ) : ℕ :=
  match hoverQuotient delay with
  | Dbl.fin t => ⌈t⌉₊
  | _ => 0

/-- The `PWR_INFO` message of the `k`-th tick. -/
def infoCall (env : ℕ → Env) (k : ℕ) : Effect :=
  Effect.powerSendData PwrKind.PWR_INFO (infoPayload (nowOf (env k)) (k : Int))

/-- The calls made when the measurement starts. -/
def startCalls : List Effect :=
  [Effect.qInfo ["Starting measurement"], Effect.powerSendData PwrKind.PWR_START ""]

/-- The calls made when the measurement ends. -/
def stopCalls : List Effect :=
  [Effect.qInfo ["Finishing measurement and landing"],
   Effect.powerSendData PwrKind.PWR_STOP "", Effect.guidedModeLand]

/-- The calls the mission description expects of the `k`-th tick of a hover of
`N` ticks: Start before the first Info, Stop and land after the `N`-th. -/
def expectedMissionTick (N : ℕ) (env : ℕ → Env) (k : ℕ) : List Effect :=
  (if k = 1 then startCalls else []) ++ [infoCall env k] ++ (if k = N then stopCalls else [])

/-- The calls the mission description expects of a whole hover of `N` ticks. -/
def expectedMission (N : ℕ) (env : ℕ → Env) : List Effect :=
  startCalls ++ (List.range N).map (fun i => infoCall env (i + 1)) ++ stopCalls

/-- Selects the messages of one kind on the Power channel. -/
def Effect.isPower (kind : PwrKind) : Effect → Bool
  | Effect.powerSendData k _ => decide (k = kind)
  | _ => false

/-- Selects the land command. -/
def Effect.isLand : Effect → Bool
  | Effect.guidedModeLand => true
  | _ => false

/-- Selects the arm command `setArmed(true)`. -/
def Effect.isArm : Effect → Bool
  | Effect.setArmed true => true
  | _ => false

/-- The payload of a `PWR_INFO` message. -/
def Effect.infoOf : Effect → Option String
  | Effect.powerSendData PwrKind.PWR_INFO payload => some payload
  | _ => none

/-- In a list of per-tick call lists, the number of ticks before the first one
that sends a Power message of the given kind. -/
def firstTickWith (kind : PwrKind) (trace : List (List Effect)) : ℕ :=
  (trace.takeWhile (fun calls => !(calls.any (Effect.isPower kind)))).length

/-- The mode carried by the most recent `flightModeChanged` signal of a list,
if there is one. -/
def lastNotified : List (Env × Event) → Option String
  | [] => none
  | (_, e) :: rest =>
    match lastNotified rest with
    | some m => some m
    | none =>
      match e with
      | Event.flightModeChanged m => some m
      | _ => none

/-- The value of `previousFlightMode` the description expects after a signal:
the mode of a `flightModeChanged`, the old value otherwise. -/
def recordedMode (e : Event) (previous : String) : String :=
  match e with
  | Event.flightModeChanged m => m
  | _ => previous

/-- The agent after `k` ticks of the hover, `k` below the number of hover ticks. -/
def hovering (s : Agent) (k : ℕ) : Agent :=
  { s with m_mission_data :=
      { s.m_mission_data with stage := if k = 0 then 0 else 1, tick := (k : Int) } }

/-- The agent after the last tick of a hover of `N` ticks. -/
def landing (s : Agent) (N : ℕ) : Agent :=
  { s with m_mission_data := { s.m_mission_data with stage := 2, tick := (N : Int) },
           m_mission_state := STATE_LAND }

/-! ## Construction (`UBAgent::UBAgent`, `startAgent`) -/

/-- The macro `STL_PORT` of `UBConfig.h`. -/
def STL_PORT : Nat := 5760

/-- The macro `NET_PORT` of `UBConfig.h`. -/
def NET_PORT : Nat := 15760

/-- The macro `PWR_PORT` of `UBConfig.h`. -/
def PWR_PORT : Nat := 35760

/-- The macro `BAUD_RATE` of `UBConfig.h`. -/
def BAUD_RATE : Nat := 115200

/-- The macro `SERIAL_PORT` of `UBConfig.h`. -/
def SERIAL_PORT : String := "ttyACM0"

/-- A call `startAgent` makes on the link manager, the vehicle manager, the two
channels and the timer. -/
inductive SetupCall where
  | addTcpLink (port : Nat)
  | addSerialLink (portName : String) (baud : Nat)
  | connectVehicleAdded
  | connectVehicleRemoved
  | netConnectToHost (port : Nat)
  | powerConnectToHost (port : Nat)
  | timerStart (msec : Option Int)
  deriving DecidableEq, Repr

/-- The method `UBAgent::startAgent`; `instanceArg` is the value of
`parser.value("I").toUInt()`, narrowed to `quint8`.  The timer is started with
the `double` product `1000.0 * MISSION_TRACK_DELAY` converted to `int`.  Of the
agent's fields it assigns `m_mission_data.stage` and `m_mission_data.tick`
only. -/
def startAgent (instanceArg : Nat) (delay : ℚ) (s : Agent) : Agent × List SetupCall :=
  let id := instanceArg % 256
  let link : SetupCall :=
    if id ≠ 0 then SetupCall.addTcpLink (10 * id + STL_PORT + 3)
    else SetupCall.addSerialLink SERIAL_PORT BAUD_RATE
  ({ s with m_mission_data := s.m_mission_data.reset },
   [link, SetupCall.connectVehicleAdded, SetupCall.connectVehicleRemoved,
    SetupCall.netConnectToHost (10 * id + NET_PORT),
    SetupCall.powerConnectToHost PWR_PORT,
    SetupCall.timerStart (doubleToInt (roundDouble (1000 * delay)))])

/-- The constructor `UBAgent::UBAgent`.  Its initializer list is `m_mav(nullptr)`
alone and its body creates the channels and the timer and calls `startAgent`; a
member that neither assigns keeps the content of the storage the object is built
in.  `storedState`, `storedStage`, `storedTick` are that content for
`m_mission_state`, `stage` and `tick`; the string member is built empty;
`address` is the address a new `UBNetwork` starts with. -/
def construct (storedState : EMissionState) (storedStage storedTick : Int) (address : Nat)
    (instanceArg : Nat) (delay : ℚ) : Agent × List SetupCall :=
  startAgent instanceArg delay
    { m_mission_state := storedState,
      m_mission_data := { stage := storedStage, tick := storedTick, previousFlightMode := "" },
      m_mav := none, netID := address }

/-! ## Notions used to state the properties -/

/-- The address the description expects of the Network channel: the identity of
the bound vehicle, `0` when none is bound. -/
def expectedAddress (s : Agent) : Nat :=
  match s.m_mav with
  | some v => v.id
  | none => 0

/-- The argument of the last `m_net->setID` among some calls, `previous` when
there is none: the address the Network channel was last given. -/
def lastSetID (calls : List Effect) (previous : Nat) : Nat :=
  calls.foldl (fun address c =>
    match c with
    | Effect.netSetID a => a
    | _ => address) previous

/-- The bounds on the counters in each phase, for a hover of `N` ticks. -/
def CountersOk (N : ℕ) (s : Agent) : Prop :=
  0 ≤ s.m_mission_data.stage ∧ s.m_mission_data.stage ≤ 2 ∧
  0 ≤ s.m_mission_data.tick ∧ s.m_mission_data.tick ≤ (N : Int) ∧
  (s.m_mission_state = STATE_TAKEOFF →
    s.m_mission_data.stage = 0 ∧ s.m_mission_data.tick = 0) ∧
  (s.m_mission_state = STATE_MISSION →
    (s.m_mission_data.stage = 0 ∧ s.m_mission_data.tick = 0) ∨
    (s.m_mission_data.stage = 1 ∧ 1 ≤ s.m_mission_data.tick ∧ s.m_mission_data.tick < (N : Int))) ∧
  (s.m_mission_state = STATE_LAND →
    s.m_mission_data.stage = 2 ∧ s.m_mission_data.tick = (N : Int))

/-- The count of timeouts spent in phase `STATE_MISSION` since the phase was last
entered, after one more signal: a tick in `STATE_MISSION` adds one, a tick that
takes `STATE_TAKEOFF` to `STATE_MISSION` starts the count at `0`. -/
def countAfter (e : Event) (before after : EMissionState) (count : ℕ) : ℕ :=
  match e with
  | Event.timeout =>
    match before with
    | STATE_MISSION => count + 1
    | STATE_TAKEOFF => if after = STATE_MISSION then 0 else count
    | _ => count
  | _ => count

/-- The number of timeouts processed in phase `STATE_MISSION` since the phase was
last entered, along a list of signals; `count` is the number so far.  It is a
counter kept beside the agent, not a field of it. -/
def missionTicks (delay : ℚ) : List (Env × Event) → Agent → ℕ → ℕ
  | [], _, count => count
  | (env, e) :: rest, s, count =>
    match step delay env e s with
    | none => count
    | some (s1, _) =>
      missionTicks delay rest s1 (countAfter e s.m_mission_state s1.m_mission_state count)

/-- The bounds of `CountersOk`, and `tick` equal to the count of timeouts spent
in `STATE_MISSION` while the phase is `STATE_MISSION` or `STATE_LAND`. -/
def CountersTrack (N : ℕ) (s : Agent) (count : ℕ) : Prop :=
  CountersOk N s ∧
  ((s.m_mission_state = STATE_MISSION ∨ s.m_mission_state = STATE_LAND) →
    s.m_mission_data.tick = (count : Int))

/-- The number of seconds an Info payload shows for the 32-bit reading `now`. -/
def printedSeconds (now : Nat) : ℚ :=
  (now : ℚ) / 1000

/-! ## Sample values used to instantiate the theorems -/

/-- The `double` nearest to two thirds, the value of `2.0 / 3`. -/
def twoThirds : ℚ := 6004799503160661 / 9007199254740992

/-- The `double` nearest to nine thousandths, the value of `0.009`. -/
def nineMillis : ℚ := 5188146770730811 / 576460752303423488

/-- A tick period of `2 ^ (-30)` seconds, a `double`. -/
def tinyDelay : ℚ := 1 / 1073741824

/-- A vehicle with identity 7. -/
def vehicle7 : Vehicle := { ptr := 1, id := 7 }

/-- Telemetry with the given relative altitude, guided mode on, armed, clock 0. -/
def envAlt (alt : ℚ) : Env :=
  { altitudeRelative := Dbl.fin alt, guidedMode := true, armed := true,
    defaultComponentId := 1, currentMSecsSinceEpoch := 0 }

/-- An agent in the given phase with the given counters, bound to `vehicle7`. -/
def agentIn (phase : EMissionState) (stage tick : Int) : Agent :=
  { m_mission_state := phase,
    m_mission_data := { stage := stage, tick := tick, previousFlightMode := "" },
    m_mav := some vehicle7, netID := 7 }

/-- An agent in phase `STATE_IDLE` with reset working data and no vehicle bound;
`address` is the address of the Network channel. -/
def idleUnbound (address : Nat) : Agent :=
  { m_mission_state := STATE_IDLE,
    m_mission_data := { stage := 0, tick := 0, previousFlightMode := "" },
    m_mav := none, netID := address }

/-- The signals of a whole flight at a tick period of one second: vehicle 7
attaches, arming on the ground at altitude 0.2, a tick at altitude 4.5, the 20
ticks of the hover reading `env`, a tick at altitude 0.5. -/
def flightScenario (env : ℕ → Env) : List (Env × Event) :=
  [(envAlt 0, Event.vehicleAdded (some vehicle7)),
   (envAlt (1 / 5), Event.armedChanged true),
   (envAlt (9 / 2), Event.timeout)] ++ ticks env 20 ++ [(envAlt (1 / 2), Event.timeout)]

/-- The signals up to the entry into Mission: vehicle 7 attaches, arming at
altitude 0.2, a tick at altitude 4.5. -/
def takeoffScenario : List (Env × Event) :=
  [(envAlt 0, Event.vehicleAdded (some vehicle7)),
   (envAlt (1 / 5), Event.armedChanged true),
   (envAlt (9 / 2), Event.timeout)]

/-- The signals of a flight whose hover is a single tick (tick period 20 s):
vehicle 7 attaches, arming at altitude 0.2, a tick at altitude 4.5, a tick of the
hover. -/
def shortFlight : List (Env × Event) :=
  [(envAlt 0, Event.vehicleAdded (some vehicle7)),
   (envAlt (1 / 5), Event.armedChanged true),
   (envAlt (9 / 2), Event.timeout),
   (envAlt 5, Event.timeout)]

/-- The calls of `shortFlight`, signal by signal. -/
def shortFlightCalls : List (List Effect) :=
  [[Effect.connectSig vehicle7 Signal.armedChanged,
    Effect.connectSig vehicle7 Signal.flightModeChanged,
    Effect.netSetID 7, Effect.qInfo ["New MAV connected with ID: ", "7"]],
   [Effect.qInfo ["Mission starts..."],
    Effect.sendMavCommand 1 MavCmd.MAV_CMD_NAV_TAKEOFF true [0, 0, 0, 0, 0, 0, 5]],
   [Effect.qInfo ["Takeoff completed."]],
   [Effect.qInfo ["Starting measurement"],
    Effect.powerSendData PwrKind.PWR_START "",
    Effect.powerSendData PwrKind.PWR_INFO "0.000 The tick is: 1",
    Effect.qInfo ["Finishing measurement and landing"],
    Effect.powerSendData PwrKind.PWR_STOP "",
    Effect.guidedModeLand]]

/-- Vehicle 9 attaches, a broadcast message arrives, vehicle 9 detaches, vehicle
7 attaches. -/
def bindTwice : List (Env × Event) :=
  [(envAlt 0, Event.vehicleAdded (some { ptr := 2, id := 9 })),
   (envAlt 0, Event.dataReady 255 "x"),
   (envAlt 0, Event.vehicleRemoved (some { ptr := 2, id := 9 })),
   (envAlt 0, Event.vehicleAdded (some vehicle7))]

/-- The calls of `bindTwice`, signal by signal. -/
def bindTwiceCalls : List (List Effect) :=
  [[Effect.connectSig { ptr := 2, id := 9 } Signal.armedChanged,
    Effect.connectSig { ptr := 2, id := 9 } Signal.flightModeChanged,
    Effect.netSetID 9, Effect.qInfo ["New MAV connected with ID: ", "9"]],
   [Effect.qInfo ["Data received from srcID=", "255", ":\n", "x"]],
   [Effect.disconnectSig { ptr := 2, id := 9 } Signal.armedChanged,
    Effect.disconnectSig { ptr := 2, id := 9 } Signal.flightModeChanged,
    Effect.netSetID 0, Effect.qInfo ["MAV disconnected with ID: ", "9"]],
   [Effect.connectSig vehicle7 Signal.armedChanged,
    Effect.connectSig vehicle7 Signal.flightModeChanged,
    Effect.netSetID 7, Effect.qInfo ["New MAV connected with ID: ", "7"]]]

/-! ## Comparisons of `double` values -/

theorem Dbl.gt_eq_false_of_le {a : Dbl} {c : ℚ} (h : a.le c = true) : a.gt c = false := by
  cases a <;> simp_all [Dbl.le, Dbl.gt]

theorem Dbl.lt_eq_false_of_ge {a : Dbl} {c : ℚ} (h : a.ge c = true) : a.lt c = false := by
  cases a <;> simp_all [Dbl.ge, Dbl.lt]

/-! ## Sequences of signals -/

theorem run_append (delay : ℚ) (es fs : List (Env × Event)) (s : Agent) :
    run delay (es ++ fs) s =
      match run delay es s with
      | none => none
      | some (s1, t1) =>
        match run delay fs s1 with
        | none => none
        | some (s2, t2) => some (s2, t1 ++ t2) := by
  induction es generalizing s with
  | nil =>
    simp only [List.nil_append, run]
    cases run delay fs s with
    | none => rfl
    | some r => simp
  | cons x rest ih =>
    obtain ⟨env, e⟩ := x
    simp only [List.cons_append, run]
    rcases step delay env e s with _ | ⟨s1, e1⟩
    · rfl
    · simp only [List.append_eq, ih]
      rcases run delay rest s1 with _ | ⟨s2, e2⟩
      · rfl
      · simp only
        rcases run delay fs s2 with _ | ⟨s3, e3⟩
        · rfl
        · simp

theorem run_append_some (delay : ℚ) (es fs : List (Env × Event)) (s s1 s2 : Agent)
    (t1 t2 : List (List Effect)) (h1 : run delay es s = some (s1, t1))
    (h2 : run delay fs s1 = some (s2, t2)) :
    run delay (es ++ fs) s = some (s2, t1 ++ t2) := by
  rw [run_append, h1]
  simp only
  rw [h2]

theorem run_single (delay : ℚ) (env : Env) (e : Event) (s s1 : Agent) (calls : List Effect)
    (h : step delay env e s = some (s1, calls)) :
    run delay [(env, e)] s = some (s1, [calls]) := by
  simp [run, h]

theorem run_snoc (delay : ℚ) (es : List (Env × Event)) (env : Env) (e : Event)
    (s s1 s2 : Agent) (trace : List (List Effect)) (calls : List Effect)
    (h1 : run delay es s = some (s1, trace)) (h2 : step delay env e s1 = some (s2, calls)) :
    run delay (es ++ [(env, e)]) s = some (s2, trace ++ [calls]) := by
  rw [run_append, h1]
  simp [run_single delay env e s1 s2 calls h2]

/-! ## The slots, case by case -/

theorem POINT_ZONE_cast : ((POINT_ZONE : Int) : ℚ) = 1 := by
  simp [POINT_ZONE]

theorem TAKEOFF_margin_cast : (((TAKEOFF_ALT - POINT_ZONE : Int) : Int) : ℚ) = 4 := by
  simp [TAKEOFF_ALT, POINT_ZONE]

theorem armedChangedEvent_accept (env : Env) (s : Agent) (v : Vehicle)
    (hb : s.m_mav = some v) (halt : env.altitudeRelative.gt 1 = false)
    (hg : env.guidedMode = true) :
    armedChangedEvent env true s
      = some ({ s with m_mission_data := { s.m_mission_data with stage := 0, tick := 0 },
                       m_mission_state := STATE_TAKEOFF },
              [Effect.qInfo ["Mission starts..."],
               Effect.sendMavCommand env.defaultComponentId MavCmd.MAV_CMD_NAV_TAKEOFF true
                 [0, 0, 0, 0, 0, 0, 5]]) := by
  simp only [armedChangedEvent, hb, POINT_ZONE_cast, halt, hg]
  rfl

theorem armedChangedEvent_airborne (env : Env) (s : Agent) (v : Vehicle)
    (hb : s.m_mav = some v) (halt : env.altitudeRelative.gt 1 = true) :
    armedChangedEvent env true s
      = some (s, [Effect.qWarning ["The mission can not start while the drone is airborne!"]]) := by
  simp only [armedChangedEvent, hb, POINT_ZONE_cast, halt]
  rfl

theorem armedChangedEvent_notGuided (env : Env) (s : Agent) (v : Vehicle)
    (hb : s.m_mav = some v) (halt : env.altitudeRelative.gt 1 = false)
    (hg : env.guidedMode = false) :
    armedChangedEvent env true s
      = some (s, [Effect.qWarning
          ["The mission can not start while the drone is not in Guided mode!"]]) := by
  simp only [armedChangedEvent, hb, POINT_ZONE_cast, halt, hg]
  rfl

theorem stateTakeoff_stay (env : Env) (s : Agent) (v : Vehicle)
    (hb : s.m_mav = some v) (halt : env.altitudeRelative.gt 4 = false) :
    stateTakeoff env s = some (s, []) := by
  simp only [stateTakeoff, hb, TAKEOFF_margin_cast, halt]
  rfl

theorem stateTakeoff_reached (env : Env) (s : Agent) (v : Vehicle)
    (hb : s.m_mav = some v) (halt : env.altitudeRelative.gt 4 = true) :
    stateTakeoff env s
      = some ({ s with m_mission_data := { s.m_mission_data with stage := 0 },
                       m_mission_state := STATE_MISSION },
              [Effect.qInfo ["Takeoff completed."]]) := by
  simp only [stateTakeoff, hb, TAKEOFF_margin_cast, halt]
  rfl

theorem stateLand_stay (env : Env) (s : Agent) (v : Vehicle)
    (hb : s.m_mav = some v) (halt : env.altitudeRelative.lt 1 = false) :
    stateLand env s = some (s, []) := by
  simp only [stateLand, hb, POINT_ZONE_cast, halt]
  rfl

theorem stateLand_reached (env : Env) (s : Agent) (v : Vehicle)
    (hb : s.m_mav = some v) (halt : env.altitudeRelative.lt 1 = true) :
    stateLand env s
      = some ({ s with m_mission_state := STATE_IDLE }, [Effect.qInfo ["Land completed."]]) := by
  simp only [stateLand, hb, POINT_ZONE_cast, halt]
  rfl

/-! ## The hover (`stateMission`) -/

theorem roundHalfEven_intCast (z : Int) : roundHalfEven (z : ℚ) = z := by
  simp [roundHalfEven]

theorem roundHalfEven_of_lt (x : ℚ) (f : Int) (h1 : (f : ℚ) ≤ x) (h2 : x < f + 1 / 2) :
    roundHalfEven x = f := by
  have hf : ⌊x⌋ = f := Int.floor_eq_iff.mpr ⟨h1, by linarith⟩
  unfold roundHalfEven
  rw [hf, if_pos (by linarith)]

theorem log_two_eq (q : ℚ) (e : Int) (hq : 0 < q) (h1 : (2 : ℚ) ^ e ≤ q)
    (h2 : q < (2 : ℚ) ^ (e + 1)) : Int.log 2 q = e := by
  have a : e ≤ Int.log 2 q := (Int.zpow_le_iff_le_log (by norm_num) hq).mp (by simpa using h1)
  have b : Int.log 2 q < e + 1 := (Int.lt_zpow_iff_log_lt (by norm_num) hq).mp (by simpa using h2)
  omega

theorem roundDouble_eq (q : ℚ) (e m : Int) (hq : 0 < q) (h1 : (2 : ℚ) ^ e ≤ q)
    (h2 : q < (2 : ℚ) ^ (e + 1)) (hmin : -1022 ≤ e)
    (hm : roundHalfEven (q / 2 ^ (e - 52)) = m)
    (hfin : (m : ℚ) * 2 ^ (e - 52) < 2 ^ (1024 : ℕ)) :
    roundDouble q = Dbl.fin ((m : ℚ) * 2 ^ (e - 52)) := by
  unfold roundDouble
  rw [if_neg (ne_of_gt hq)]
  simp only [abs_of_pos hq, log_two_eq q e hq h1 h2, max_eq_left hmin, hm]
  rw [if_neg (not_le.mpr hfin), if_pos hq]

theorem roundDouble_exact (q : ℚ) (e m : Int) (hq : 0 < q) (h1 : (2 : ℚ) ^ e ≤ q)
    (h2 : q < (2 : ℚ) ^ (e + 1)) (hmin : -1022 ≤ e) (hmax : e ≤ 1023)
    (hm : q = (m : ℚ) * 2 ^ (e - 52)) : roundDouble q = Dbl.fin q := by
  have hpos : (0 : ℚ) < 2 ^ (e - 52) := by positivity
  have hdiv : q / 2 ^ (e - 52) = (m : ℚ) := by
    rw [hm]; field_simp
  have h := roundDouble_eq q e m hq h1 h2 hmin (by rw [hdiv]; exact roundHalfEven_intCast m)
    (by
      rw [← hm]
      calc q < (2 : ℚ) ^ (e + 1) := h2
        _ ≤ (2 : ℚ) ^ ((1024 : ℕ) : Int) := zpow_le_zpow_right₀ (by norm_num) (by omega)
        _ = 2 ^ (1024 : ℕ) := zpow_natCast 2 1024)
  rw [h, ← hm]

theorem twoThirds_eq : roundDouble (2 / 3) = Dbl.fin twoThirds := by
  have h := roundDouble_eq (2 / 3) (-1) 6004799503160661 (by norm_num) (by norm_num)
    (by norm_num) (by norm_num)
    (roundHalfEven_of_lt _ _ (by norm_num) (by norm_num)) (by norm_num)
  rw [h]
  norm_num [twoThirds]

theorem roundHalfEven_of_gt (x : ℚ) (f : Int) (h1 : (f : ℚ) + 1 / 2 < x) (h2 : x < f + 1) :
    roundHalfEven x = f + 1 := by
  have hf : ⌊x⌋ = f := Int.floor_eq_iff.mpr ⟨by linarith, h2⟩
  unfold roundHalfEven
  rw [hf, if_neg (by linarith), if_pos (by linarith)]

theorem nineMillis_eq : roundDouble (9 / 1000) = Dbl.fin nineMillis := by
  have h := roundDouble_eq (9 / 1000) (-7) 5188146770730811 (by norm_num) (by norm_num)
    (by norm_num) (by norm_num)
    (roundHalfEven_of_lt _ _ (by norm_num) (by norm_num)) (by norm_num)
  rw [h]
  norm_num [nineMillis]

/-- The timer period `startAgent` asks for.  At `MISSION_TRACK_DELAY = 1` it is
1000 ms.  At `0.009` the exact product is just below 9, the `double` product is
`9.0`, and the period is 9 ms. -/
theorem startAgent_timer (instanceArg : Nat) (s : Agent) :
    (startAgent instanceArg 1 s).2.getLast? = some (SetupCall.timerStart (some 1000)) ∧
    1000 * nineMillis < 9 ∧
    (startAgent instanceArg nineMillis s).2.getLast? = some (SetupCall.timerStart (some 9)) := by
  have h1 : roundDouble (1000 * 1) = Dbl.fin 1000 := by
    have h := roundDouble_exact 1000 9 (1000 * 2 ^ 43) (by norm_num) (by norm_num) (by norm_num)
      (by norm_num) (by norm_num) (by norm_num)
    rw [mul_one]
    exact h
  have h9 : roundDouble (1000 * nineMillis) = Dbl.fin 9 := by
    have h := roundDouble_eq (1000 * nineMillis) 3 (5066549580791807 + 1)
      (by norm_num [nineMillis]) (by norm_num [nineMillis]) (by norm_num [nineMillis])
      (by norm_num)
      (roundHalfEven_of_gt _ _ (by norm_num [nineMillis]) (by norm_num [nineMillis]))
      (by norm_num)
    rw [h]
    norm_num
  refine ⟨?_, by norm_num [nineMillis], ?_⟩
  · simp only [startAgent, h1, List.getLast?_cons_cons, List.getLast?_singleton]
    simp [doubleToInt]
  · simp only [startAgent, h9, List.getLast?_cons_cons, List.getLast?_singleton]
    simp [doubleToInt]

theorem hoverQuotient_one : hoverQuotient 1 = Dbl.fin 20 := by
  have h := roundDouble_exact 20 4 (20 * 2 ^ 48) (by norm_num) (by norm_num) (by norm_num)
    (by norm_num) (by norm_num) (by norm_num)
  simp only [hoverQuotient]
  norm_num
  exact h

theorem hoverQuotient_five : hoverQuotient 5 = Dbl.fin 4 := by
  have h := roundDouble_exact 4 2 (4 * 2 ^ 50) (by norm_num) (by norm_num) (by norm_num)
    (by norm_num) (by norm_num) (by norm_num)
  simp only [hoverQuotient]
  norm_num
  exact h

theorem hoverQuotient_twenty : hoverQuotient 20 = Dbl.fin 1 := by
  have h := roundDouble_exact 1 0 (2 ^ 52) (by norm_num) (by norm_num) (by norm_num)
    (by norm_num) (by norm_num) (by norm_num)
  simp only [hoverQuotient]
  norm_num
  exact h

theorem hoverQuotient_twoThirds : hoverQuotient twoThirds = Dbl.fin 30 := by
  have h := roundDouble_eq (20 * 1 / twoThirds) 4 (30 * 2 ^ 48) (by norm_num [twoThirds])
    (by norm_num [twoThirds]) (by norm_num [twoThirds]) (by norm_num)
    (roundHalfEven_of_lt _ _ (by norm_num [twoThirds]) (by norm_num [twoThirds])) (by norm_num)
  have hne : twoThirds ≠ 0 := by norm_num [twoThirds]
  rw [hoverQuotient, if_neg hne, h]
  norm_num

theorem hoverQuotient_tiny : hoverQuotient tinyDelay = Dbl.fin 21474836480 := by
  have h := roundDouble_exact 21474836480 34 (5 * 2 ^ 50) (by norm_num) (by norm_num)
    (by norm_num) (by norm_num) (by norm_num) (by norm_num)
  have hne : tinyDelay ≠ 0 := by norm_num [tinyDelay]
  have hval : (20 * 1 / tinyDelay : ℚ) = 21474836480 := by norm_num [tinyDelay]
  rw [hoverQuotient, if_neg hne, hval]
  exact h

theorem wrapInt_eq (x : Int) (h1 : -2147483648 ≤ x) (h2 : x ≤ 2147483647) : wrapInt x = x := by
  unfold wrapInt
  omega

theorem wrapInt_one : wrapInt 1 = 1 :=
  wrapInt_eq 1 (by norm_num) (by norm_num)

theorem wrapInt_twenty : wrapInt 20 = 20 :=
  wrapInt_eq 20 (by norm_num) (by norm_num)

theorem wrapInt_range (x : Int) : -2147483648 ≤ wrapInt x ∧ wrapInt x ≤ 2147483647 := by
  unfold wrapInt
  omega

theorem hoverDone_eq (delay t : ℚ) (tick : Int) (hq : hoverQuotient delay = Dbl.fin t) :
    hoverDone delay tick = decide (t ≤ (tick : ℚ)) := by
  simp only [hoverDone, hq, Dbl.le]

theorem hoverTicks_eq (delay t : ℚ) (hq : hoverQuotient delay = Dbl.fin t) :
    hoverTicks delay = ⌈t⌉₊ := by
  simp only [hoverTicks, hq]

theorem hoverTicks_quotient (delay : ℚ) (hN : 1 ≤ hoverTicks delay) :
    ∃ t : ℚ, hoverQuotient delay = Dbl.fin t ∧ 0 < t ∧ hoverTicks delay = ⌈t⌉₊ := by
  cases hq : hoverQuotient delay with
  | nan => simp [hoverTicks, hq] at hN
  | ninf => simp [hoverTicks, hq] at hN
  | pinf => simp [hoverTicks, hq] at hN
  | fin t =>
    have he := hoverTicks_eq delay t hq
    refine ⟨t, rfl, ?_, he⟩
    rw [he] at hN
    exact Nat.ceil_pos.mp (by omega)

theorem hoverDone_iff (delay : ℚ) (hN : 1 ≤ hoverTicks delay) (t : Int) :
    hoverDone delay t = true ↔ (hoverTicks delay : Int) ≤ t := by
  obtain ⟨q, hq, hpos, he⟩ := hoverTicks_quotient delay hN
  rw [hoverDone_eq delay q t hq, he, decide_eq_true_eq]
  rcases lt_or_le t 0 with hneg | hnn
  · constructor
    · intro h
      have ht : (t : ℚ) < 0 := by exact_mod_cast hneg
      linarith
    · intro h
      have : (0 : Int) ≤ (⌈q⌉₊ : Int) := Int.natCast_nonneg _
      omega
  · obtain ⟨n, rfl⟩ := Int.eq_ofNat_of_zero_le hnn
    rw [Int.cast_natCast, Nat.cast_le]
    exact Nat.ceil_le.symm

theorem hoverDone_natCast (delay : ℚ) (hN : 1 ≤ hoverTicks delay) (k : ℕ) :
    hoverDone delay (k : Int) = decide (hoverTicks delay ≤ k) := by
  by_cases h : hoverTicks delay ≤ k
  · rw [decide_eq_true h]
    exact (hoverDone_iff delay hN k).mpr (by exact_mod_cast h)
  · rw [decide_eq_false h]
    cases hh : hoverDone delay (k : Int) with
    | false => rfl
    | true => exact absurd (by exact_mod_cast (hoverDone_iff delay hN k).mp hh) h

theorem hovering_zero (s : Agent) (hs : s.m_mission_data.stage = 0)
    (ht : s.m_mission_data.tick = 0) : hovering s 0 = s := by
  obtain ⟨ph, ⟨st, tk, pm⟩, mav, nid⟩ := s
  simp only at hs ht
  subst hs ht
  rfl

theorem missionTracker_hovering (delay : ℚ) (hN : 1 ≤ hoverTicks delay)
    (hmax : hoverTicks delay ≤ 2147483647) (env : ℕ → Env) (s : Agent)
    (hp : s.m_mission_state = STATE_MISSION) (k : ℕ) (hk : k + 1 < hoverTicks delay) :
    missionTracker delay (env (k + 1)) (hovering s k)
      = some (hovering s (k + 1), expectedMissionTick (hoverTicks delay) env (k + 1)) := by
  have hw : wrapInt ((k : Int) + 1) = (k : Int) + 1 := wrapInt_eq _ (by omega) (by omega)
  have hnd : hoverDone delay ((k : Int) + 1) = false := by
    have := hoverDone_natCast delay hN (k + 1)
    rw [Nat.cast_add, Nat.cast_one] at this
    rw [this]
    exact decide_eq_false (by omega)
  have hne : k + 1 ≠ hoverTicks delay := by omega
  rcases Nat.eq_zero_or_pos k with h0 | h0
  · subst h0
    simp only [Nat.cast_zero, zero_add] at hw hnd
    simp [missionTracker, hovering, hp, stateMission, expectedMissionTick, infoCall, startCalls,
      hne, hw, hnd]
  · have hk0 : k ≠ 0 := by omega
    simp [missionTracker, hovering, hp, stateMission, expectedMissionTick, infoCall, hk0, hne,
      hw, hnd]

theorem missionTracker_landing (delay : ℚ) (hN : 1 ≤ hoverTicks delay)
    (hmax : hoverTicks delay ≤ 2147483647) (env : ℕ → Env) (s : Agent)
    (v : Vehicle) (hp : s.m_mission_state = STATE_MISSION) (hb : s.m_mav = some v)
    (k : ℕ) (hk : k + 1 = hoverTicks delay) :
    missionTracker delay (env (k + 1)) (hovering s k)
      = some (landing s (k + 1), expectedMissionTick (hoverTicks delay) env (k + 1)) := by
  have hw : wrapInt ((k : Int) + 1) = (k : Int) + 1 := wrapInt_eq _ (by omega) (by omega)
  have hdone : hoverDone delay ((k : Int) + 1) = true := by
    have := hoverDone_natCast delay hN (k + 1)
    rw [Nat.cast_add, Nat.cast_one] at this
    rw [this]
    exact decide_eq_true (by omega)
  generalize hoverTicks delay = N at hk ⊢
  subst hk
  rcases Nat.eq_zero_or_pos k with h0 | h0
  · subst h0
    simp only [Nat.cast_zero, zero_add] at hw hdone
    simp [missionTracker, hovering, landing, hp, hb, stateMission, expectedMissionTick, infoCall,
      startCalls, stopCalls, hw, hdone]
  · have hk0 : k ≠ 0 := by omega
    simp [missionTracker, hovering, landing, hp, hb, stateMission, expectedMissionTick, infoCall,
      stopCalls, hk0, hw, hdone]

theorem ticks_succ (env : ℕ → Env) (n : ℕ) :
    ticks env (n + 1) = ticks env n ++ [(env (n + 1), Event.timeout)] := by
  simp [ticks, List.range_succ]

theorem run_hovering (delay : ℚ) (hN : 1 ≤ hoverTicks delay)
    (hmax : hoverTicks delay ≤ 2147483647) (env : ℕ → Env) (s : Agent)
    (hp : s.m_mission_state = STATE_MISSION) (k : ℕ) (hk : k < hoverTicks delay) :
    run delay (ticks env k) (hovering s 0)
      = some (hovering s k,
          (List.range k).map (fun i => expectedMissionTick (hoverTicks delay) env (i + 1))) := by
  induction k with
  | zero => rfl
  | succ n ih =>
    rw [ticks_succ, List.range_succ, List.map_append]
    exact run_snoc delay (ticks env n) (env (n + 1)) Event.timeout _ _ _ _ _
      (ih (by omega)) (missionTracker_hovering delay hN hmax env s hp n hk)

theorem run_landing (delay : ℚ) (hN : 1 ≤ hoverTicks delay)
    (hmax : hoverTicks delay ≤ 2147483647) (env : ℕ → Env) (s : Agent) (v : Vehicle)
    (hp : s.m_mission_state = STATE_MISSION) (hb : s.m_mav = some v) :
    run delay (ticks env (hoverTicks delay)) (hovering s 0)
      = some (landing s (hoverTicks delay),
          (List.range (hoverTicks delay)).map
            (fun i => expectedMissionTick (hoverTicks delay) env (i + 1))) := by
  obtain ⟨n, hn⟩ : ∃ n, hoverTicks delay = n + 1 := ⟨hoverTicks delay - 1, by omega⟩
  have h1 := run_hovering delay hN hmax env s hp n (by omega)
  have h2 := missionTracker_landing delay hN hmax env s v hp hb n hn.symm
  rw [hn] at h1 h2 ⊢
  rw [ticks_succ, List.range_succ, List.map_append]
  exact run_snoc delay (ticks env n) (env (n + 1)) Event.timeout _ _ _ _ _ h1 h2

theorem join_hovering (N : ℕ) (env : ℕ → Env) (k : ℕ) (hk : k < N) :
    ((List.range k).map (fun i => expectedMissionTick N env (i + 1))).flatten
      = if k = 0 then [] else startCalls ++ (List.range k).map (fun i => infoCall env (i + 1)) := by
  induction k with
  | zero => rfl
  | succ n ih =>
    have hne : n + 1 ≠ N := by omega
    rw [List.range_succ, List.map_append, List.flatten_append, ih (by omega)]
    rcases Nat.eq_zero_or_pos n with h0 | h0
    · subst h0
      simp [expectedMissionTick, hne]
    · have hn0 : n ≠ 0 := by omega
      simp [expectedMissionTick, hne, hn0]

theorem join_landing (N : ℕ) (hN : 1 ≤ N) (env : ℕ → Env) :
    ((List.range N).map (fun i => expectedMissionTick N env (i + 1))).flatten
      = expectedMission N env := by
  obtain ⟨n, rfl⟩ : ∃ n, N = n + 1 := ⟨N - 1, by omega⟩
  rw [List.range_succ, List.map_append, List.flatten_append, join_hovering (n + 1) env n (by omega)]
  rcases Nat.eq_zero_or_pos n with h0 | h0
  · subst h0
    simp [expectedMissionTick, expectedMission, List.range_succ]
  · have hn0 : n ≠ 0 := by omega
    simp [expectedMissionTick, expectedMission, hn0, List.range_succ]

theorem expectedMission_counts (N : ℕ) (env : ℕ → Env) :
    ((expectedMission N env).filter (Effect.isPower PwrKind.PWR_START)).length = 1 ∧
    ((expectedMission N env).filter (Effect.isPower PwrKind.PWR_STOP)).length = 1 ∧
    ((expectedMission N env).filter Effect.isLand).length = 1 ∧
    (expectedMission N env).filterMap Effect.infoOf
      = (List.range N).map (fun i => infoPayload (nowOf (env (i + 1))) ((i + 1 : ℕ) : Int)) := by
  refine ⟨?_, ?_, ?_, ?_⟩
  · simp [expectedMission, startCalls, stopCalls, List.filter_append, List.filter_map,
      Function.comp_def, infoCall, Effect.isPower]
  · simp [expectedMission, startCalls, stopCalls, List.filter_append, List.filter_map,
      Function.comp_def, infoCall, Effect.isPower]
  · simp [expectedMission, startCalls, stopCalls, List.filter_append, List.filter_map,
      Function.comp_def, infoCall, Effect.isLand]
  · simp [expectedMission, startCalls, stopCalls, List.filterMap_append, List.filterMap_map,
      Function.comp_def, infoCall, Effect.infoOf]
    exact congrFun (List.filterMap_eq_map
      (fun i : ℕ => infoPayload (nowOf (env (i + 1))) ((i : Int) + 1))) (List.range N)

theorem hoverTicks_one : hoverTicks 1 = 20 := by
  rw [hoverTicks_eq 1 20 hoverQuotient_one]
  exact_mod_cast Nat.ceil_natCast 20

theorem hoverTicks_five : hoverTicks 5 = 4 := by
  rw [hoverTicks_eq 5 4 hoverQuotient_five]
  exact_mod_cast Nat.ceil_natCast 4

theorem hoverTicks_twenty : hoverTicks 20 = 1 := by
  rw [hoverTicks_eq 20 1 hoverQuotient_twenty]
  exact_mod_cast Nat.ceil_natCast 1

theorem hoverTicks_twoThirds : hoverTicks twoThirds = 30 := by
  rw [hoverTicks_eq twoThirds 30 hoverQuotient_twoThirds]
  exact_mod_cast Nat.ceil_natCast 30

theorem ceil_twoThirds : ⌈20 / twoThirds⌉₊ = 31 := by
  rw [Nat.ceil_eq_iff (by norm_num)]
  constructor <;> norm_num [twoThirds]

theorem hover_periods_twoThirds : (hoverTicks twoThirds : ℚ) * twoThirds < 20 := by
  rw [hoverTicks_twoThirds]
  norm_num [twoThirds]

theorem missionTracker_overflow (delay t : ℚ) (hq : hoverQuotient delay = Dbl.fin t)
    (hbig : 2147483647 < t) (env : Env) (s : Agent)
    (hp : s.m_mission_state = STATE_MISSION)
    (hs : s.m_mission_data.stage = 0 ∨ s.m_mission_data.stage = 1) :
    ∃ s1 calls, missionTracker delay env s = some (s1, calls) ∧
      s1.m_mission_state = STATE_MISSION ∧ s1.m_mission_data.stage = 1 ∧
      s1.m_mission_data.tick = wrapInt (s.m_mission_data.tick + 1) := by
  have hstage : (if s.m_mission_data.stage = 0 then s.m_mission_data.stage + 1
      else s.m_mission_data.stage) = 1 := by
    rcases hs with h0 | h1
    · rw [if_pos h0, h0]; rfl
    · rw [if_neg (by rw [h1]; decide), h1]
  have hnd : hoverDone delay (wrapInt (s.m_mission_data.tick + 1)) = false := by
    rw [hoverDone_eq delay t _ hq]
    apply decide_eq_false
    have hr := (wrapInt_range (s.m_mission_data.tick + 1)).2
    have hc : ((wrapInt (s.m_mission_data.tick + 1) : Int) : ℚ) ≤ 2147483647 := by
      exact_mod_cast hr
    linarith
  simp only [missionTracker, hp, stateMission, hstage, if_true, hnd, Bool.false_eq_true,
    if_false]
  exact ⟨_, _, rfl, rfl, rfl, rfl⟩

theorem run_overflow (delay t : ℚ) (hq : hoverQuotient delay = Dbl.fin t)
    (hbig : 2147483647 < t) (env : ℕ → Env) (s : Agent)
    (hp : s.m_mission_state = STATE_MISSION)
    (hs : s.m_mission_data.stage = 0 ∨ s.m_mission_data.stage = 1)
    (hlo : -2147483648 ≤ s.m_mission_data.tick) (hhi : s.m_mission_data.tick ≤ 2147483647)
    (n : ℕ) :
    ∃ s1 trace, run delay (ticks env n) s = some (s1, trace) ∧
      s1.m_mission_state = STATE_MISSION ∧
      (s1.m_mission_data.stage = 0 ∨ s1.m_mission_data.stage = 1) ∧
      s1.m_mission_data.tick = wrapInt (s.m_mission_data.tick + (n : Int)) := by
  induction n with
  | zero =>
    refine ⟨s, [], rfl, hp, hs, ?_⟩
    rw [Nat.cast_zero, add_zero, wrapInt_eq _ hlo hhi]
  | succ n ih =>
    obtain ⟨s1, tr, hrun, hp1, hs1, ht1⟩ := ih
    obtain ⟨s2, c2, hstep, hp2, hs2, ht2⟩ :=
      missionTracker_overflow delay t hq hbig (env (n + 1)) s1 hp1 hs1
    refine ⟨s2, tr ++ [c2], ?_, hp2, Or.inr hs2, ?_⟩
    · rw [ticks_succ]
      exact run_snoc delay _ _ Event.timeout s s1 s2 tr c2 hrun hstep
    · rw [ht2, ht1]
      unfold wrapInt
      push_cast
      omega

/-! ## The ticks that send Start and Stop -/

theorem step_previousFlightMode (delay : ℚ) (env : Env) (e : Event) (s s1 : Agent)
    (calls : List Effect) (h : step delay env e s = some (s1, calls)) :
    s1.m_mission_data.previousFlightMode = recordedMode e s.m_mission_data.previousFlightMode := by
  cases e with
  | vehicleAdded mav =>
    simp only [step, vehicleAddedEvent, setMAV] at h
    repeat' split at h
    all_goals
      simp only [Option.some.injEq, Prod.mk.injEq] at h
      obtain ⟨rfl, -⟩ := h
      rfl
  | vehicleRemoved mav =>
    simp only [step, vehicleRemovedEvent, setMAV] at h
    repeat' split at h
    all_goals
      simp only [Option.some.injEq, Prod.mk.injEq] at h
      obtain ⟨rfl, -⟩ := h
      rfl
  | armedChanged armed =>
    simp only [step, armedChangedEvent, SMissionData.reset] at h
    repeat' split at h
    all_goals
      cases h
      try rfl
  | flightModeChanged mode =>
    simp only [step, flightModeChangedEvent] at h
    repeat' split at h
    all_goals
      cases h
      try rfl
  | dataReady srcID data =>
    simp only [step, dataReadyEvent, Option.some.injEq, Prod.mk.injEq] at h
    obtain ⟨rfl, -⟩ := h
    rfl
  | timeout =>
    simp only [step, missionTracker, stateIdle, stateTakeoff, stateLand, stateMission] at h
    repeat' split at h
    all_goals
      cases h
      try rfl

theorem run_previousFlightMode (delay : ℚ) (es : List (Env × Event)) (s s1 : Agent)
    (trace : List (List Effect)) (h : run delay es s = some (s1, trace)) :
    s1.m_mission_data.previousFlightMode
      = (lastNotified es).getD s.m_mission_data.previousFlightMode := by
  induction es generalizing s s1 trace with
  | nil =>
    simp only [run, Option.some.injEq, Prod.mk.injEq] at h
    obtain ⟨rfl, -⟩ := h
    rfl
  | cons x rest ih =>
    obtain ⟨env, e⟩ := x
    simp only [run] at h
    cases hstep : step delay env e s with
    | none => rw [hstep] at h; exact absurd h (by simp)
    | some r =>
      obtain ⟨s2, c2⟩ := r
      rw [hstep] at h
      simp only at h
      cases hrun : run delay rest s2 with
      | none => rw [hrun] at h; exact absurd h (by simp)
      | some r2 =>
        obtain ⟨s3, t3⟩ := r2
        rw [hrun] at h
        simp only [Option.some.injEq, Prod.mk.injEq] at h
        obtain ⟨rfl, -⟩ := h
        rw [ih s2 s3 t3 hrun, step_previousFlightMode delay env e s s2 c2 hstep]
        simp only [lastNotified]
        cases hl : lastNotified rest with
        | some m => rfl
        | none => cases e <;> rfl

theorem flightModeChangedEvent_bound (env : Env) (mode : String) (s : Agent) (v : Vehicle)
    (hb : s.m_mav = some v) :
    flightModeChangedEvent env mode s
      = some ({ s with m_mission_data := { s.m_mission_data with previousFlightMode := mode } },
          Effect.qInfo [mode] ::
            (if s.m_mission_data.previousFlightMode = "Land" ∧ mode = "Guided" ∧ env.armed = false
              then [Effect.setArmed true] else [])) := by
  simp only [flightModeChangedEvent, hb]
  by_cases h1 : s.m_mission_data.previousFlightMode = "Land" ∧ mode = "Guided"
  · cases ha : env.armed <;> simp [h1]
  · rw [if_neg h1, if_neg (fun h => h1 ⟨h.1, h.2.1⟩)]

/-! ## Arming and disarming (`armedChangedEvent`) -/

/-- C1: in every state (any phase, counters, binding and telemetry) the slot for
`armedChanged(false)` returns, makes no call and leaves the phase `STATE_IDLE`,
touching no other field; hence whenever a sequence of signals has been
processed, processing `armedChanged(false)` after it ends in phase
`STATE_IDLE`. -/
theorem armedChanged_false_forces_idle (delay : ℚ) (env : Env) (s : Agent) :
    step delay env (Event.armedChanged false) s
        = some ({ s with m_mission_state := STATE_IDLE }, []) ∧
    ∀ (es : List (Env × Event)) (s1 : Agent) (trace : List (List Effect)),
      run delay es s = some (s1, trace) →
      ∃ s2, run delay (es ++ [(env, Event.armedChanged false)]) s = some (s2, trace ++ [[]]) ∧
        s2.m_mission_state = STATE_IDLE := by
  refine ⟨rfl, ?_⟩
  intro es s1 trace h
  exact ⟨{ s1 with m_mission_state := STATE_IDLE },
    run_snoc delay es env (Event.armedChanged false) s s1 _ trace [] h rfl, rfl⟩

theorem armedChanged_false_forces_idle_witness :
    ∃ s2, run 1 ([(envAlt 0, Event.timeout)] ++ [(envAlt 3, Event.armedChanged false)])
        (agentIn STATE_MISSION 0 0)
      = some (s2, [[Effect.qInfo ["Starting measurement"],
                    Effect.powerSendData PwrKind.PWR_START "",
                    Effect.powerSendData PwrKind.PWR_INFO (infoPayload 0 1)]] ++ [[]]) ∧
      s2.m_mission_state = STATE_IDLE :=
  (armedChanged_false_forces_idle 1 (envAlt 3) (agentIn STATE_MISSION 0 0)).2
    [(envAlt 0, Event.timeout)] (agentIn STATE_MISSION 1 1) _
    (by simp [run, step, missionTracker, stateMission, agentIn, hoverDone, hoverQuotient_one,
      Dbl.le, wrapInt_one, nowOf, envAlt])

/-- C2: with a bound vehicle, whatever the prior phase and counters,
`armedChanged(true)` at relative altitude `<= POINT_ZONE = 1` in guided mode
sets the phase to `STATE_TAKEOFF` and `stage`, `tick` to `0`, and the only
vehicle command issued is one `MAV_CMD_NAV_TAKEOFF` with error reporting on and
last parameter `TAKEOFF_ALT = 5`; no message is sent and the other fields keep
their values. -/
theorem armedChanged_true_starts_takeoff (env : Env) (s : Agent) (v : Vehicle)
    (hb : s.m_mav = some v) (halt : env.altitudeRelative.le 1 = true)
    (hg : env.guidedMode = true) :
    ∃ s' effs, armedChangedEvent env true s = some (s', effs) ∧
      s'.m_mission_state = STATE_TAKEOFF ∧
      s'.m_mission_data.stage = 0 ∧ s'.m_mission_data.tick = 0 ∧
      s'.m_mission_data.previousFlightMode = s.m_mission_data.previousFlightMode ∧
      s'.m_mav = s.m_mav ∧ s'.netID = s.netID ∧
      effs.filter Effect.isVehicleCommand
        = [Effect.sendMavCommand env.defaultComponentId MavCmd.MAV_CMD_NAV_TAKEOFF true
            [0, 0, 0, 0, 0, 0, 5]] ∧
      effs.filter Effect.isMessage = [] ∧
      POINT_ZONE = 1 ∧ TAKEOFF_ALT = 5 := by
  exact ⟨_, _, armedChangedEvent_accept env s v hb (Dbl.gt_eq_false_of_le halt) hg,
    rfl, rfl, rfl, rfl, rfl, rfl, rfl, rfl, rfl, rfl⟩

theorem armedChanged_true_starts_takeoff_witness :
    ∃ s' effs, armedChangedEvent (envAlt 1) true (agentIn STATE_IDLE 2 20) = some (s', effs) ∧
      s'.m_mission_state = STATE_TAKEOFF ∧
      s'.m_mission_data.stage = 0 ∧ s'.m_mission_data.tick = 0 ∧
      s'.m_mission_data.previousFlightMode
        = (agentIn STATE_IDLE 2 20).m_mission_data.previousFlightMode ∧
      s'.m_mav = (agentIn STATE_IDLE 2 20).m_mav ∧ s'.netID = (agentIn STATE_IDLE 2 20).netID ∧
      effs.filter Effect.isVehicleCommand
        = [Effect.sendMavCommand (envAlt 1).defaultComponentId MavCmd.MAV_CMD_NAV_TAKEOFF true
            [0, 0, 0, 0, 0, 0, 5]] ∧
      effs.filter Effect.isMessage = [] ∧
      POINT_ZONE = 1 ∧ TAKEOFF_ALT = 5 :=
  armedChanged_true_starts_takeoff (envAlt 1) (agentIn STATE_IDLE 2 20) vehicle7 rfl
    (by simp [envAlt, Dbl.le]) rfl

/-- C3: with a bound vehicle, `armedChanged(true)` at relative altitude
`> POINT_ZONE = 1`, or with guided mode off, returns with every field of the
agent unchanged (phase, `stage`, `tick` and the rest) and issues no vehicle
command and no message; in particular a phase `STATE_IDLE` stays
`STATE_IDLE`. -/
theorem armedChanged_true_rejected (env : Env) (s : Agent) (v : Vehicle)
    (hb : s.m_mav = some v)
    (h : env.altitudeRelative.gt 1 = true ∨ env.guidedMode = false) :
    ∃ effs, armedChangedEvent env true s = some (s, effs) ∧
      effs.filter Effect.isVehicleCommand = [] ∧
      effs.filter Effect.isMessage = [] ∧
      POINT_ZONE = 1 := by
  cases hgt : env.altitudeRelative.gt 1 with
  | true => exact ⟨_, armedChangedEvent_airborne env s v hb hgt, rfl, rfl, rfl⟩
  | false =>
    have hg : env.guidedMode = false := by
      rcases h with h | h
      · rw [hgt] at h
        exact absurd h (by decide)
      · exact h
    exact ⟨_, armedChangedEvent_notGuided env s v hb hgt hg, rfl, rfl, rfl⟩

theorem armedChanged_true_rejected_witness :
    ∃ effs, armedChangedEvent (envAlt (3 / 2)) true (agentIn STATE_IDLE 0 0)
        = some (agentIn STATE_IDLE 0 0, effs) ∧
      effs.filter Effect.isVehicleCommand = [] ∧
      effs.filter Effect.isMessage = [] ∧
      POINT_ZONE = 1 :=
  armedChanged_true_rejected (envAlt (3 / 2)) (agentIn STATE_IDLE 0 0) vehicle7 rfl
    (Or.inl (by simp [envAlt, Dbl.gt]; norm_num))

/-! ## The altitude polls (`stateTakeoff`, `stateLand`) -/

/-- C6: a tick in phase `STATE_TAKEOFF` with a bound vehicle.  At relative
altitude `<= TAKEOFF_ALT - POINT_ZONE = 4` (so at exactly 4) the agent is
unchanged and no call is made; at every altitude `> 4` the phase becomes
`STATE_MISSION`, `stage` is `0`, `tick` and the other fields keep their values,
and no vehicle command or message is issued. -/
theorem takeoff_tick_threshold (delay : ℚ) (env : Env) (s : Agent) (v : Vehicle)
    (hp : s.m_mission_state = STATE_TAKEOFF) (hb : s.m_mav = some v) :
    TAKEOFF_ALT - POINT_ZONE = 4 ∧
    (env.altitudeRelative.le 4 = true → missionTracker delay env s = some (s, [])) ∧
    (env.altitudeRelative = Dbl.fin 4 → missionTracker delay env s = some (s, [])) ∧
    (env.altitudeRelative.gt 4 = true →
      ∃ s' effs, missionTracker delay env s = some (s', effs) ∧
        s'.m_mission_state = STATE_MISSION ∧ s'.m_mission_data.stage = 0 ∧
        s'.m_mission_data.tick = s.m_mission_data.tick ∧
        s'.m_mission_data.previousFlightMode = s.m_mission_data.previousFlightMode ∧
        s'.m_mav = s.m_mav ∧ s'.netID = s.netID ∧
        effs.filter Effect.isVehicleCommand = [] ∧ effs.filter Effect.isMessage = []) := by
  have hle : env.altitudeRelative.le 4 = true → missionTracker delay env s = some (s, []) := by
    intro h
    simp only [missionTracker, hp]
    exact stateTakeoff_stay env s v hb (Dbl.gt_eq_false_of_le h)
  refine ⟨by decide, hle, ?_, ?_⟩
  · intro h
    apply hle
    simp [h, Dbl.le]
  · intro h
    have hd : missionTracker delay env s = stateTakeoff env s := by
      simp only [missionTracker, hp]
    exact ⟨_, _, hd.trans (stateTakeoff_reached env s v hb h),
      rfl, rfl, rfl, rfl, rfl, rfl, rfl, rfl⟩

theorem takeoff_tick_threshold_witness :
    missionTracker 1 (envAlt 4) (agentIn STATE_TAKEOFF 0 0)
        = some (agentIn STATE_TAKEOFF 0 0, []) ∧
    ∃ s' effs, missionTracker 1 (envAlt (9 / 2)) (agentIn STATE_TAKEOFF 0 0) = some (s', effs) ∧
        s'.m_mission_state = STATE_MISSION ∧ s'.m_mission_data.stage = 0 ∧
        s'.m_mission_data.tick = (agentIn STATE_TAKEOFF 0 0).m_mission_data.tick ∧
        s'.m_mission_data.previousFlightMode
          = (agentIn STATE_TAKEOFF 0 0).m_mission_data.previousFlightMode ∧
        s'.m_mav = (agentIn STATE_TAKEOFF 0 0).m_mav ∧
        s'.netID = (agentIn STATE_TAKEOFF 0 0).netID ∧
        effs.filter Effect.isVehicleCommand = [] ∧ effs.filter Effect.isMessage = [] :=
  ⟨(takeoff_tick_threshold 1 (envAlt 4) (agentIn STATE_TAKEOFF 0 0) vehicle7 rfl rfl).2.1
     (by simp [envAlt, Dbl.le]),
   (takeoff_tick_threshold 1 (envAlt (9 / 2)) (agentIn STATE_TAKEOFF 0 0) vehicle7 rfl rfl).2.2.2
     (by simp [envAlt, Dbl.gt]; norm_num)⟩

/-- C7: a tick in phase `STATE_LAND` with a bound vehicle.  At relative altitude
`>= POINT_ZONE = 1` (so at exactly 1) the agent is unchanged and no call is
made; at every altitude `< 1` the phase becomes `STATE_IDLE`, the working data
and the other fields keep their values, and no vehicle command or message is
issued. -/
theorem land_tick_threshold (delay : ℚ) (env : Env) (s : Agent) (v : Vehicle)
    (hp : s.m_mission_state = STATE_LAND) (hb : s.m_mav = some v) :
    POINT_ZONE = 1 ∧
    (env.altitudeRelative.ge 1 = true → missionTracker delay env s = some (s, [])) ∧
    (env.altitudeRelative = Dbl.fin 1 → missionTracker delay env s = some (s, [])) ∧
    (env.altitudeRelative.lt 1 = true →
      ∃ effs, missionTracker delay env s
          = some ({ s with m_mission_state := STATE_IDLE }, effs) ∧
        effs.filter Effect.isVehicleCommand = [] ∧ effs.filter Effect.isMessage = []) := by
  have hge : env.altitudeRelative.ge 1 = true → missionTracker delay env s = some (s, []) := by
    intro h
    simp only [missionTracker, hp]
    exact stateLand_stay env s v hb (Dbl.lt_eq_false_of_ge h)
  refine ⟨rfl, hge, ?_, ?_⟩
  · intro h
    apply hge
    simp [h, Dbl.ge]
  · intro h
    have hd : missionTracker delay env s = stateLand env s := by
      simp only [missionTracker, hp]
    exact ⟨_, hd.trans (stateLand_reached env s v hb h), rfl, rfl⟩

theorem land_tick_threshold_witness :
    missionTracker 1 (envAlt 1) (agentIn STATE_LAND 2 20) = some (agentIn STATE_LAND 2 20, []) ∧
    ∃ effs, missionTracker 1 (envAlt (1 / 2)) (agentIn STATE_LAND 2 20)
          = some ({ agentIn STATE_LAND 2 20 with m_mission_state := STATE_IDLE }, effs) ∧
        effs.filter Effect.isVehicleCommand = [] ∧ effs.filter Effect.isMessage = [] :=
  ⟨(land_tick_threshold 1 (envAlt 1) (agentIn STATE_LAND 2 20) vehicle7 rfl rfl).2.1
     (by simp [envAlt, Dbl.ge]),
   (land_tick_threshold 1 (envAlt (1 / 2)) (agentIn STATE_LAND 2 20) vehicle7 rfl rfl).2.2.2
     (by simp [envAlt, Dbl.lt]; norm_num)⟩

/-! ## The hover of the Mission phase -/

/-- C4, refuted as stated.  At the tick period `2.0 / 3` (the `double` nearest
to two thirds) `ceil(20 / p)` is 31, but the quotient the source computes,
`20 * 1.0 / p`, is the `double` `30.0`: its test holds at `tick = 30`, and after
30 ticks the phase is `STATE_LAND`, not `STATE_MISSION`.  At the tick period
`2 ^ (-30)` the count `ceil(20 / p) = 21474836480` exceeds `INT_MAX`: `tick`
wraps around and after that many ticks the phase is still `STATE_MISSION`. -/
theorem mission_hover_run_counterexample :
    roundDouble (2 / 3) = Dbl.fin twoThirds ∧
    ⌈20 / twoThirds⌉₊ = 31 ∧
    hoverDone twoThirds 30 = true ∧
    ¬ (((⌈20 / twoThirds⌉₊ : ℕ) : Int) ≤ 30) ∧
    (∃ s trace, run twoThirds (ticks (fun _ => envAlt 5) 30) (agentIn STATE_MISSION 0 0)
        = some (s, trace) ∧ s.m_mission_state = STATE_LAND) ∧
    ⌈20 / tinyDelay⌉₊ = 21474836480 ∧
    (∃ s trace, run tinyDelay (ticks (fun _ => envAlt 5) 21474836480)
        (agentIn STATE_MISSION 0 0) = some (s, trace) ∧ s.m_mission_state = STATE_MISSION) := by
  refine ⟨twoThirds_eq, ceil_twoThirds, ?_, ?_, ?_, ?_, ?_⟩
  · rw [hoverDone_eq twoThirds 30 30 hoverQuotient_twoThirds]
    norm_num
  · rw [ceil_twoThirds]
    decide
  · have h := run_landing twoThirds (by rw [hoverTicks_twoThirds]; decide)
      (by rw [hoverTicks_twoThirds]; decide) (fun _ => envAlt 5) (agentIn STATE_MISSION 0 0)
      vehicle7 rfl rfl
    rw [hoverTicks_twoThirds, hovering_zero _ rfl rfl] at h
    exact ⟨_, _, h, rfl⟩
  · rw [Nat.ceil_eq_iff (by norm_num)]
    constructor <;> norm_num [tinyDelay]
  · obtain ⟨s1, tr, hrun, hp, -, -⟩ := run_overflow tinyDelay 21474836480 hoverQuotient_tiny
      (by norm_num) (fun _ => envAlt 5) (agentIn STATE_MISSION 0 0) rfl (Or.inl rfl)
      (by decide) (by decide) 21474836480
    exact ⟨s1, tr, hrun, hp⟩

/-- C4, amended: let `N` be the least whole number that is at least the `double`
quotient `20 * 1.0 / delay` the source computes (it is `ceil(20 / delay)`
whenever that quotient is exactly `20 / delay`), and let `1 <= N <= INT_MAX`.
With a bound vehicle, starting in phase `STATE_MISSION` with `stage = 0`,
`tick = 0`: the source test holds exactly when `tick >= N`; the first `k < N`
ticks return, leave the phase `STATE_MISSION` with `tick = k`, and the `N`
ticks return and leave the phase `STATE_LAND`; the calls of tick `k` are Start
(only if `k = 1`), then Info with tick number `k`, then Stop and land (only if
`k = N`); over the run there is one Start, one Stop, one land command, and the
Info payloads carry the tick numbers `1, 2, ..., N` in order. -/
theorem mission_hover_run (delay : ℚ) (hN : 1 ≤ hoverTicks delay)
    (hmax : hoverTicks delay ≤ 2147483647) (env : ℕ → Env) (s : Agent)
    (v : Vehicle) (hp : s.m_mission_state = STATE_MISSION)
    (hs : s.m_mission_data.stage = 0) (ht : s.m_mission_data.tick = 0)
    (hb : s.m_mav = some v) :
    (∃ t : ℚ, hoverQuotient delay = Dbl.fin t ∧ 0 < t ∧ hoverTicks delay = ⌈t⌉₊) ∧
    (hoverQuotient delay = Dbl.fin (20 / delay) → hoverTicks delay = ⌈20 / delay⌉₊) ∧
    (∀ t : Int, hoverDone delay t = true ↔ (hoverTicks delay : Int) ≤ t) ∧
    (∀ k, k < hoverTicks delay →
      ∃ sk, run delay (ticks env k) s
          = some (sk, (List.range k).map
              (fun i => expectedMissionTick (hoverTicks delay) env (i + 1))) ∧
        sk.m_mission_state = STATE_MISSION ∧ sk.m_mission_data.tick = (k : Int)) ∧
    (∃ sN trace, run delay (ticks env (hoverTicks delay)) s = some (sN, trace) ∧
      trace = (List.range (hoverTicks delay)).map
          (fun i => expectedMissionTick (hoverTicks delay) env (i + 1)) ∧
      sN.m_mission_state = STATE_LAND ∧
      sN.m_mission_data.tick = (hoverTicks delay : Int) ∧ sN.m_mission_data.stage = 2 ∧
      trace.flatten = expectedMission (hoverTicks delay) env ∧
      (trace.flatten.filter (Effect.isPower PwrKind.PWR_START)).length = 1 ∧
      (trace.flatten.filter (Effect.isPower PwrKind.PWR_STOP)).length = 1 ∧
      (trace.flatten.filter Effect.isLand).length = 1 ∧
      trace.flatten.filterMap Effect.infoOf
        = (List.range (hoverTicks delay)).map
            (fun i => infoPayload (nowOf (env (i + 1))) ((i + 1 : ℕ) : Int))) := by
  have h0 := hovering_zero s hs ht
  refine ⟨hoverTicks_quotient delay hN, fun hq => hoverTicks_eq delay _ hq,
    hoverDone_iff delay hN, ?_, ?_⟩
  · intro k hk
    have h := run_hovering delay hN hmax env s hp k hk
    rw [h0] at h
    exact ⟨_, h, hp, rfl⟩
  · have h := run_landing delay hN hmax env s v hp hb
    rw [h0] at h
    have hj := join_landing (hoverTicks delay) hN env
    obtain ⟨c1, c2, c3, c4⟩ := expectedMission_counts (hoverTicks delay) env
    refine ⟨_, _, h, rfl, rfl, rfl, rfl, hj, ?_, ?_, ?_, ?_⟩
    · rw [hj]; exact c1
    · rw [hj]; exact c2
    · rw [hj]; exact c3
    · rw [hj]; exact c4

theorem mission_hover_run_witness :
    1 ≤ hoverTicks 5 ∧ hoverTicks 5 ≤ 2147483647 ∧ 2 < hoverTicks 5 ∧
    (∃ sk, run 5 (ticks (fun _ => envAlt 5) 2) (agentIn STATE_MISSION 0 0)
        = some (sk, (List.range 2).map
            (fun i => expectedMissionTick (hoverTicks 5) (fun _ => envAlt 5) (i + 1))) ∧
      sk.m_mission_state = STATE_MISSION ∧ sk.m_mission_data.tick = ((2 : ℕ) : Int)) ∧
    ∃ sN trace, run 5 (ticks (fun _ => envAlt 5) (hoverTicks 5)) (agentIn STATE_MISSION 0 0)
        = some (sN, trace) ∧
      trace = (List.range (hoverTicks 5)).map
          (fun i => expectedMissionTick (hoverTicks 5) (fun _ => envAlt 5) (i + 1)) ∧
      sN.m_mission_state = STATE_LAND ∧
      sN.m_mission_data.tick = (hoverTicks 5 : Int) ∧ sN.m_mission_data.stage = 2 ∧
      trace.flatten = expectedMission (hoverTicks 5) (fun _ => envAlt 5) ∧
      (trace.flatten.filter (Effect.isPower PwrKind.PWR_START)).length = 1 ∧
      (trace.flatten.filter (Effect.isPower PwrKind.PWR_STOP)).length = 1 ∧
      (trace.flatten.filter Effect.isLand).length = 1 ∧
      trace.flatten.filterMap Effect.infoOf
        = (List.range (hoverTicks 5)).map
            (fun i => infoPayload (nowOf ((fun _ => envAlt 5) (i + 1))) ((i + 1 : ℕ) : Int)) :=
  ⟨by rw [hoverTicks_five]; decide, by rw [hoverTicks_five]; decide,
   by rw [hoverTicks_five]; decide,
   (mission_hover_run 5 (by rw [hoverTicks_five]; decide) (by rw [hoverTicks_five]; decide)
      (fun _ => envAlt 5) (agentIn STATE_MISSION 0 0) vehicle7
      rfl rfl rfl rfl).2.2.2.1 2 (by rw [hoverTicks_five]; decide),
   (mission_hover_run 5 (by rw [hoverTicks_five]; decide) (by rw [hoverTicks_five]; decide)
      (fun _ => envAlt 5) (agentIn STATE_MISSION 0 0) vehicle7
      rfl rfl rfl rfl).2.2.2.2⟩

/-- C9, evaluated with no vehicle bound (`m_mav` null): a tick in phase
`STATE_TAKEOFF` or `STATE_LAND` dereferences `m_mav` and has no result; a tick
in phase `STATE_MISSION` changes `stage` and `tick` and sends Start and Info;
the tick that ends the hover dereferences `m_mav`.  Only in `STATE_IDLE` is the
tick the no-op of an idle agent. -/
theorem tick_unbound_not_idle :
    missionTracker 1 (envAlt 0) { agentIn STATE_TAKEOFF 0 0 with m_mav := none, netID := 0 }
      = none ∧
    missionTracker 1 (envAlt 0) { agentIn STATE_LAND 2 20 with m_mav := none, netID := 0 }
      = none ∧
    missionTracker 1 (envAlt 0) { agentIn STATE_MISSION 0 0 with m_mav := none, netID := 0 }
      = some ({ agentIn STATE_MISSION 1 1 with m_mav := none, netID := 0 },
              [Effect.qInfo ["Starting measurement"],
               Effect.powerSendData PwrKind.PWR_START "",
               Effect.powerSendData PwrKind.PWR_INFO "0.000 The tick is: 1"]) ∧
    missionTracker 1 (envAlt 0) { agentIn STATE_MISSION 1 19 with m_mav := none, netID := 0 }
      = none ∧
    missionTracker 1 (envAlt 0) { agentIn STATE_IDLE 0 0 with m_mav := none, netID := 0 }
      = some ({ agentIn STATE_IDLE 0 0 with m_mav := none, netID := 0 }, []) := by
  refine ⟨rfl, rfl, ?_, ?_, rfl⟩
  · simp [missionTracker, stateMission, agentIn, hoverDone, hoverQuotient_one, Dbl.le,
      wrapInt_one, nowOf, envAlt]
    decide
  · simp [missionTracker, stateMission, agentIn, hoverDone, hoverQuotient_one, Dbl.le,
      wrapInt_twenty, nowOf, envAlt]

/-! ## Automatic arming on the change from Land to Guided -/

/-- C8: with a bound vehicle a `flightModeChanged(mode)` signal returns, records
`mode` as `previousFlightMode`, changes nothing else, and its vehicle commands
are the single `setArmed(true)` when the recorded mode was `"Land"`, `mode` is
`"Guided"` and the vehicle is not armed, and none otherwise.  Every other
signal that returns leaves `previousFlightMode` as it was (the reset on arming
included).  Hence after any sequence of signals from an agent whose recorded
mode is still the empty initial one, the next notification arms exactly once
if the most recent earlier notification carried `"Land"`, the new mode is
`"Guided"` and the vehicle is not armed, and not at all otherwise. -/
theorem flightMode_arm_rule (delay : ℚ) :
    (∀ (env : Env) (mode : String) (s : Agent) (v : Vehicle), s.m_mav = some v →
      ∃ calls, step delay env (Event.flightModeChanged mode) s
          = some ({ s with m_mission_data :=
                      { s.m_mission_data with previousFlightMode := mode } }, calls) ∧
        calls.filter Effect.isVehicleCommand
          = if s.m_mission_data.previousFlightMode = "Land" ∧ mode = "Guided" ∧ env.armed = false
              then [Effect.setArmed true] else []) ∧
    (∀ (env : Env) (e : Event) (s s1 : Agent) (calls : List Effect),
      (∀ m, e ≠ Event.flightModeChanged m) → step delay env e s = some (s1, calls) →
      s1.m_mission_data.previousFlightMode = s.m_mission_data.previousFlightMode) ∧
    (∀ (es : List (Env × Event)) (s0 s : Agent) (trace : List (List Effect)) (env : Env)
        (mode : String) (v : Vehicle),
      s0.m_mission_data.previousFlightMode = "" → run delay es s0 = some (s, trace) →
      s.m_mav = some v →
      ∃ s1 calls, run delay (es ++ [(env, Event.flightModeChanged mode)]) s0
          = some (s1, trace ++ [calls]) ∧
        (calls.filter Effect.isArm).length
          = (if lastNotified es = some "Land" ∧ mode = "Guided" ∧ env.armed = false
              then 1 else 0) ∧
        calls.filter Effect.isVehicleCommand = calls.filter Effect.isArm ∧
        s1.m_mission_data.previousFlightMode = mode) := by
  refine ⟨?_, ?_, ?_⟩
  · intro env mode s v hb
    refine ⟨_, flightModeChangedEvent_bound env mode s v hb, ?_⟩
    by_cases hc : s.m_mission_data.previousFlightMode = "Land" ∧ mode = "Guided" ∧ env.armed = false
    · rw [if_pos hc]; rfl
    · rw [if_neg hc]; rfl
  · intro env e s s1 calls hne h
    rw [step_previousFlightMode delay env e s s1 calls h]
    cases e with
    | flightModeChanged m => exact absurd rfl (hne m)
    | _ => rfl
  · intro es s0 s trace env mode v h0 hrun hb
    have hprev := run_previousFlightMode delay es s0 s trace hrun
    rw [h0] at hprev
    have hiff : s.m_mission_data.previousFlightMode = "Land" ↔ lastNotified es = some "Land" := by
      rw [hprev]
      cases lastNotified es with
      | none => simp
      | some m => simp
    have hstep := flightModeChangedEvent_bound env mode s v hb
    refine ⟨_, _, run_snoc delay es env (Event.flightModeChanged mode) s0 s _ trace _ hrun hstep,
      ?_, ?_, rfl⟩
    · by_cases hc : lastNotified es = some "Land" ∧ mode = "Guided" ∧ env.armed = false
      · rw [if_pos hc, if_pos ⟨hiff.mpr hc.1, hc.2⟩]; rfl
      · rw [if_neg hc, if_neg (fun h => hc ⟨hiff.mp h.1, h.2⟩)]; rfl
    · by_cases hc : s.m_mission_data.previousFlightMode = "Land" ∧ mode = "Guided" ∧
          env.armed = false
      · rw [if_pos hc]; rfl
      · rw [if_neg hc]; rfl

theorem flightMode_arm_rule_witness :
    (∃ calls, step 1 (envAlt 0) (Event.flightModeChanged "Guided")
          { agentIn STATE_IDLE 0 0 with
              m_mission_data := { stage := 0, tick := 0, previousFlightMode := "Land" } }
        = some ({ agentIn STATE_IDLE 0 0 with
                    m_mission_data := { stage := 0, tick := 0, previousFlightMode := "Guided" } },
                calls) ∧
      calls.filter Effect.isVehicleCommand
        = if "Land" = "Land" ∧ "Guided" = "Guided" ∧ (envAlt 0).armed = false
            then [Effect.setArmed true] else []) ∧
    (agentIn STATE_TAKEOFF 0 0).m_mission_data.previousFlightMode
      = (agentIn STATE_IDLE 0 0).m_mission_data.previousFlightMode ∧
    ∃ s1 calls,
      run 1 ([(envAlt 0, Event.flightModeChanged "Land")] ++
          [({ envAlt 0 with armed := false }, Event.flightModeChanged "Guided")])
          (agentIn STATE_IDLE 0 0)
        = some (s1, [[Effect.qInfo ["Land"]]] ++ [calls]) ∧
      (calls.filter Effect.isArm).length
        = (if lastNotified [(envAlt 0, Event.flightModeChanged "Land")] = some "Land" ∧
              "Guided" = "Guided" ∧ ({ envAlt 0 with armed := false } : Env).armed = false
            then 1 else 0) ∧
      calls.filter Effect.isVehicleCommand = calls.filter Effect.isArm ∧
      s1.m_mission_data.previousFlightMode = "Guided" :=
  ⟨(flightMode_arm_rule 1).1 (envAlt 0) "Guided"
      { agentIn STATE_IDLE 0 0 with
          m_mission_data := { stage := 0, tick := 0, previousFlightMode := "Land" } }
      vehicle7 rfl,
   (flightMode_arm_rule 1).2.1 (envAlt 0) (Event.armedChanged true) (agentIn STATE_IDLE 0 0)
      (agentIn STATE_TAKEOFF 0 0)
      [Effect.qInfo ["Mission starts..."],
       Effect.sendMavCommand 1 MavCmd.MAV_CMD_NAV_TAKEOFF true [0, 0, 0, 0, 0, 0, 5]]
      (fun _ h => Event.noConfusion h)
      (armedChangedEvent_accept (envAlt 0) (agentIn STATE_IDLE 0 0) vehicle7 rfl
        (by simp [envAlt, Dbl.gt]) rfl),
   (flightMode_arm_rule 1).2.2 [(envAlt 0, Event.flightModeChanged "Land")]
    (agentIn STATE_IDLE 0 0)
    { agentIn STATE_IDLE 0 0 with
        m_mission_data := { stage := 0, tick := 0, previousFlightMode := "Land" } }
    [[Effect.qInfo ["Land"]]] { envAlt 0 with armed := false } "Guided" vehicle7 rfl
    (by simp [run, step, flightModeChangedEvent, agentIn]) rfl⟩

/-! ## A whole flight -/

/-- C10: at a tick period of one second, from phase `STATE_IDLE` with no vehicle
bound: attaching vehicle 7 gives the Network channel the address 7; arming at
altitude 0.2 in guided mode gives phase `STATE_TAKEOFF` and the single vehicle
command takeoff with altitude 5; a tick at altitude 4.5 gives phase
`STATE_MISSION`; of the next 20 ticks the first sends Start, the 20th sends
Stop and the land command, and the phase is then `STATE_LAND`; a tick at
altitude 0.5 gives phase `STATE_IDLE`.  The whole sequence runs to the end. -/
theorem flight_scenario (env : ℕ → Env) (address : Nat) :
    ∃ s1 s2 s3 s4 s5 c1 c2 c3 tr c5,
      step 1 (envAlt 0) (Event.vehicleAdded (some vehicle7)) (idleUnbound address)
        = some (s1, c1) ∧
      s1.netID = 7 ∧ s1.m_mav = some vehicle7 ∧ Effect.netSetID 7 ∈ c1 ∧
      step 1 (envAlt (1 / 5)) (Event.armedChanged true) s1 = some (s2, c2) ∧
      s2.m_mission_state = STATE_TAKEOFF ∧
      c2.filter Effect.isVehicleCommand
        = [Effect.sendMavCommand 1 MavCmd.MAV_CMD_NAV_TAKEOFF true [0, 0, 0, 0, 0, 0, 5]] ∧
      step 1 (envAlt (9 / 2)) Event.timeout s2 = some (s3, c3) ∧
      s3.m_mission_state = STATE_MISSION ∧
      run 1 (ticks env 20) s3 = some (s4, tr) ∧
      s4.m_mission_state = STATE_LAND ∧
      tr = (List.range 20).map (fun i => expectedMissionTick 20 env (i + 1)) ∧
      firstTickWith PwrKind.PWR_START tr = 0 ∧
      firstTickWith PwrKind.PWR_STOP tr = 19 ∧
      tr.getLast? = some ([infoCall env 20] ++ stopCalls) ∧
      (tr.flatten.filter (Effect.isPower PwrKind.PWR_START)).length = 1 ∧
      (tr.flatten.filter (Effect.isPower PwrKind.PWR_STOP)).length = 1 ∧
      (tr.flatten.filter Effect.isLand).length = 1 ∧
      step 1 (envAlt (1 / 2)) Event.timeout s4 = some (s5, c5) ∧
      s5.m_mission_state = STATE_IDLE ∧
      run 1 (flightScenario env) (idleUnbound address) = some (s5, [c1, c2, c3] ++ tr ++ [c5]) := by
  have h1 : step 1 (envAlt 0) (Event.vehicleAdded (some vehicle7)) (idleUnbound address)
      = some ({ idleUnbound address with m_mav := some vehicle7, netID := 7 },
          [Effect.connectSig vehicle7 Signal.armedChanged,
           Effect.connectSig vehicle7 Signal.flightModeChanged,
           Effect.netSetID 7, Effect.qInfo ["New MAV connected with ID: ", "7"]]) := by
    simp [step, vehicleAddedEvent, setMAV, ptrEq, idleUnbound, vehicle7]
    decide
  have h2 := armedChangedEvent_accept (envAlt (1 / 5))
    { idleUnbound address with m_mav := some vehicle7, netID := 7 } vehicle7 rfl
    (by simp [envAlt, Dbl.gt]; norm_num) rfl
  have h3 := stateTakeoff_reached (envAlt (9 / 2))
    { idleUnbound address with m_mav := some vehicle7, netID := 7,
                               m_mission_state := STATE_TAKEOFF } vehicle7 rfl
    (by simp [envAlt, Dbl.gt]; norm_num)
  have h4 := run_landing 1 (by rw [hoverTicks_one]; decide) (by rw [hoverTicks_one]; decide) env
    { idleUnbound address with m_mav := some vehicle7, netID := 7,
                               m_mission_state := STATE_MISSION } vehicle7 rfl rfl
  rw [hoverTicks_one, hovering_zero _ rfl rfl] at h4
  have h5 := stateLand_reached (envAlt (1 / 2))
    (landing { idleUnbound address with m_mav := some vehicle7, netID := 7,
                                        m_mission_state := STATE_MISSION } 20) vehicle7 rfl
    (by simp [envAlt, Dbl.lt]; norm_num)
  obtain ⟨c1, c2, c3, -⟩ := expectedMission_counts 20 env
  have hj := join_landing 20 (by norm_num) env
  refine ⟨_, _, _, _, _, _, _, _, _, _, h1, rfl, rfl, by simp, h2, rfl, rfl, h3, rfl, h4, rfl, rfl,
    rfl, rfl, rfl, ?_, ?_, ?_, h5, rfl, ?_⟩
  · rw [hj]; exact c1
  · rw [hj]; exact c2
  · rw [hj]; exact c3
  · have ha := run_snoc 1 _ (envAlt (9 / 2)) Event.timeout _ _ _ _ _
      (run_snoc 1 _ (envAlt (1 / 5)) (Event.armedChanged true) _ _ _ _ _
        (run_single 1 _ _ _ _ _ h1) h2) h3
    have hb := run_append_some 1 _ _ _ _ _ _ _ ha h4
    have hc := run_snoc 1 _ (envAlt (1 / 2)) Event.timeout _ _ _ _ _ hb h5
    simpa [flightScenario] using hc

/-! ## The vehicle binding and the Network address -/

theorem run_invariant (delay : ℚ) (P : Agent → Prop)
    (hstep : ∀ (env : Env) (e : Event) (s s1 : Agent) (calls : List Effect),
      P s → step delay env e s = some (s1, calls) → P s1)
    (es : List (Env × Event)) (s0 s : Agent) (trace : List (List Effect))
    (h0 : P s0) (h : run delay es s0 = some (s, trace)) : P s := by
  induction es generalizing s0 trace with
  | nil =>
    simp only [run, Option.some.injEq, Prod.mk.injEq] at h
    obtain ⟨rfl, -⟩ := h
    exact h0
  | cons x rest ih =>
    obtain ⟨env, e⟩ := x
    simp only [run] at h
    cases hstep1 : step delay env e s0 with
    | none => rw [hstep1] at h; exact absurd h (by simp)
    | some r =>
      obtain ⟨s1, c1⟩ := r
      rw [hstep1] at h
      simp only at h
      cases hrun : run delay rest s1 with
      | none => rw [hrun] at h; exact absurd h (by simp)
      | some r2 =>
        obtain ⟨s2, t2⟩ := r2
        rw [hrun] at h
        simp only [Option.some.injEq, Prod.mk.injEq] at h
        obtain ⟨rfl, -⟩ := h
        exact ih s1 t2 (hstep env e s0 s1 c1 h0 hstep1) hrun

theorem vehicleAddedEvent_bound (v : Vehicle) (s : Agent)
    (h : ptrEq s.m_mav (some v) = true) : vehicleAddedEvent (some v) s = some (s, []) := by
  simp [vehicleAddedEvent, h]

theorem vehicleAddedEvent_fresh (v : Vehicle) (s : Agent)
    (h : ptrEq s.m_mav (some v) = false) :
    vehicleAddedEvent (some v) s
      = some ({ s with m_mav := some v, netID := v.id },
          (setMAV (some v) s).2 ++
            [Effect.netSetID v.id,
             Effect.qInfo ["New MAV connected with ID: ", toString v.id]]) := by
  simp [vehicleAddedEvent, h, setMAV]

theorem vehicleRemovedEvent_other (v : Vehicle) (s : Agent)
    (h : ptrEq s.m_mav (some v) = false) : vehicleRemovedEvent (some v) s = some (s, []) := by
  simp [vehicleRemovedEvent, h]

theorem vehicleRemovedEvent_bound (v : Vehicle) (s : Agent)
    (h : ptrEq s.m_mav (some v) = true) :
    vehicleRemovedEvent (some v) s
      = some ({ s with m_mav := none, netID := 0 },
          (setMAV none s).2 ++
            [Effect.netSetID 0,
             Effect.qInfo ["MAV disconnected with ID: ", toString v.id]]) := by
  simp [vehicleRemovedEvent, h, setMAV]

theorem ptrEq_self (v : Vehicle) : ptrEq (some v) (some v) = true := by
  simp [ptrEq]

theorem step_binding (delay : ℚ) (env : Env) (e : Event) (s s1 : Agent)
    (calls : List Effect) (h : step delay env e s = some (s1, calls))
    (hadd : ∀ mav, e ≠ Event.vehicleAdded mav) (hrem : ∀ mav, e ≠ Event.vehicleRemoved mav) :
    s1.m_mav = s.m_mav ∧ s1.netID = s.netID := by
  cases e with
  | vehicleAdded mav => exact absurd rfl (hadd mav)
  | vehicleRemoved mav => exact absurd rfl (hrem mav)
  | armedChanged armed =>
    simp only [step, armedChangedEvent, SMissionData.reset] at h
    repeat' split at h
    all_goals
      cases h
      try exact ⟨rfl, rfl⟩
  | flightModeChanged mode =>
    simp only [step, flightModeChangedEvent] at h
    repeat' split at h
    all_goals
      cases h
      try exact ⟨rfl, rfl⟩
  | dataReady srcID data =>
    simp only [step, dataReadyEvent, Option.some.injEq, Prod.mk.injEq] at h
    obtain ⟨rfl, -⟩ := h
    exact ⟨rfl, rfl⟩
  | timeout =>
    simp only [step, missionTracker, stateIdle, stateTakeoff, stateLand, stateMission] at h
    repeat' split at h
    all_goals
      cases h
      try exact ⟨rfl, rfl⟩

theorem step_expectedAddress (delay : ℚ) (env : Env) (e : Event) (s s1 : Agent)
    (calls : List Effect) (h0 : s.netID = expectedAddress s)
    (h : step delay env e s = some (s1, calls)) : s1.netID = expectedAddress s1 := by
  cases e with
  | vehicleAdded mav =>
    cases mav with
    | none =>
      simp only [step, vehicleAddedEvent, Option.some.injEq, Prod.mk.injEq] at h
      obtain ⟨rfl, -⟩ := h
      exact h0
    | some v =>
      cases hp : ptrEq s.m_mav (some v) with
      | true =>
        rw [step, vehicleAddedEvent_bound v s hp] at h
        cases h
        exact h0
      | false =>
        rw [step, vehicleAddedEvent_fresh v s hp] at h
        cases h
        rfl
  | vehicleRemoved mav =>
    cases mav with
    | none =>
      simp only [step, vehicleRemovedEvent, Option.some.injEq, Prod.mk.injEq] at h
      obtain ⟨rfl, -⟩ := h
      exact h0
    | some v =>
      cases hp : ptrEq s.m_mav (some v) with
      | true =>
        rw [step, vehicleRemovedEvent_bound v s hp] at h
        cases h
        rfl
      | false =>
        rw [step, vehicleRemovedEvent_other v s hp] at h
        cases h
        exact h0
  | armedChanged armed =>
    obtain ⟨h1, h2⟩ := step_binding delay env _ s s1 calls h
      (fun _ hh => Event.noConfusion hh) (fun _ hh => Event.noConfusion hh)
    rw [h2, h0, expectedAddress, expectedAddress, h1]
  | flightModeChanged mode =>
    obtain ⟨h1, h2⟩ := step_binding delay env _ s s1 calls h
      (fun _ hh => Event.noConfusion hh) (fun _ hh => Event.noConfusion hh)
    rw [h2, h0, expectedAddress, expectedAddress, h1]
  | dataReady srcID data =>
    obtain ⟨h1, h2⟩ := step_binding delay env _ s s1 calls h
      (fun _ hh => Event.noConfusion hh) (fun _ hh => Event.noConfusion hh)
    rw [h2, h0, expectedAddress, expectedAddress, h1]
  | timeout =>
    obtain ⟨h1, h2⟩ := step_binding delay env _ s s1 calls h
      (fun _ hh => Event.noConfusion hh) (fun _ hh => Event.noConfusion hh)
    rw [h2, h0, expectedAddress, expectedAddress, h1]

theorem step_bind_total (delay : ℚ) (env : Env) (mav : Option Vehicle) (s : Agent) :
    (∃ s1 calls, step delay env (Event.vehicleAdded mav) s = some (s1, calls)) ∧
    (∃ s1 calls, step delay env (Event.vehicleRemoved mav) s = some (s1, calls)) := by
  constructor
  · cases mav with
    | none => exact ⟨_, _, rfl⟩
    | some v =>
      cases hp : ptrEq s.m_mav (some v) with
      | true => exact ⟨_, _, vehicleAddedEvent_bound v s hp⟩
      | false => exact ⟨_, _, vehicleAddedEvent_fresh v s hp⟩
  · cases mav with
    | none => exact ⟨_, _, rfl⟩
    | some v =>
      cases hp : ptrEq s.m_mav (some v) with
      | true => exact ⟨_, _, vehicleRemovedEvent_bound v s hp⟩
      | false => exact ⟨_, _, vehicleRemovedEvent_other v s hp⟩

theorem step_lastSetID (delay : ℚ) (env : Env) (e : Event) (s s1 : Agent)
    (calls : List Effect) (h : step delay env e s = some (s1, calls)) :
    s1.netID = lastSetID calls s.netID := by
  cases e with
  | vehicleAdded mav =>
    simp only [step, vehicleAddedEvent, setMAV] at h
    repeat' split at h
    all_goals
      cases h
      rfl
  | vehicleRemoved mav =>
    simp only [step, vehicleRemovedEvent, setMAV] at h
    repeat' split at h
    all_goals
      cases h
      rfl
  | armedChanged armed =>
    simp only [step, armedChangedEvent, SMissionData.reset] at h
    repeat' split at h
    all_goals
      cases h <;> rfl
  | flightModeChanged mode =>
    simp only [step, flightModeChangedEvent] at h
    repeat' split at h
    all_goals
      cases h <;> rfl
  | dataReady srcID data =>
    simp only [step, dataReadyEvent, Option.some.injEq, Prod.mk.injEq] at h
    obtain ⟨rfl, rfl⟩ := h
    rfl
  | timeout =>
    simp only [step, missionTracker, stateIdle, stateTakeoff, stateLand, stateMission] at h
    repeat' split at h
    all_goals
      cases h <;> rfl

theorem run_lastSetID (delay : ℚ) (es : List (Env × Event)) (s0 s : Agent)
    (trace : List (List Effect)) (h : run delay es s0 = some (s, trace)) :
    s.netID = lastSetID trace.flatten s0.netID := by
  induction es generalizing s0 trace with
  | nil =>
    simp only [run, Option.some.injEq, Prod.mk.injEq] at h
    obtain ⟨rfl, rfl⟩ := h
    rfl
  | cons x rest ih =>
    obtain ⟨env, e⟩ := x
    simp only [run] at h
    cases hstep1 : step delay env e s0 with
    | none => rw [hstep1] at h; exact absurd h (by simp)
    | some r =>
      obtain ⟨s1, c1⟩ := r
      rw [hstep1] at h
      simp only at h
      cases hrun : run delay rest s1 with
      | none => rw [hrun] at h; exact absurd h (by simp)
      | some r2 =>
        obtain ⟨s2, t2⟩ := r2
        rw [hrun] at h
        simp only [Option.some.injEq, Prod.mk.injEq] at h
        obtain ⟨rfl, rfl⟩ := h
        rw [ih s1 t2 hrun, step_lastSetID delay env e s0 s1 c1 hstep1]
        simp only [lastSetID, List.flatten_cons, List.foldl_append]

/-- C11: the Network address is the identity of the bound vehicle, and `0`
when none is bound.  This holds of the unbound agent with address `0`; attaching
and detaching a vehicle always return and keep it; every other signal that
returns keeps it; so it holds after every sequence of signals that has been
processed from that agent, where the address is also the argument of the last
`m_net->setID` call made (`0` if none was made). -/
theorem network_address_invariant (delay : ℚ) :
    (idleUnbound 0).netID = expectedAddress (idleUnbound 0) ∧
    (∀ (env : Env) (mav : Option Vehicle) (s : Agent), s.netID = expectedAddress s →
      (∃ s1 calls, step delay env (Event.vehicleAdded mav) s = some (s1, calls) ∧
        s1.netID = expectedAddress s1) ∧
      (∃ s1 calls, step delay env (Event.vehicleRemoved mav) s = some (s1, calls) ∧
        s1.netID = expectedAddress s1)) ∧
    (∀ (es : List (Env × Event)) (s : Agent) (trace : List (List Effect)),
      run delay es (idleUnbound 0) = some (s, trace) →
      (∀ v, s.m_mav = some v → s.netID = v.id) ∧ (s.m_mav = none → s.netID = 0) ∧
      s.netID = lastSetID trace.flatten 0 ∧
      lastSetID trace.flatten 0 = expectedAddress s) := by
  refine ⟨rfl, ?_, ?_⟩
  · intro env mav s h0
    obtain ⟨⟨a, ca, ha⟩, ⟨r, cr, hr⟩⟩ := step_bind_total delay env mav s
    exact ⟨⟨a, ca, ha, step_expectedAddress delay env _ s a ca h0 ha⟩,
      ⟨r, cr, hr, step_expectedAddress delay env _ s r cr h0 hr⟩⟩
  · intro es s trace h
    have hinv : s.netID = expectedAddress s :=
      run_invariant delay (fun a => a.netID = expectedAddress a)
        (fun env e a a1 calls ha hs => step_expectedAddress delay env e a a1 calls ha hs)
        es (idleUnbound 0) s trace rfl h
    have hlast : s.netID = lastSetID trace.flatten 0 :=
      run_lastSetID delay es (idleUnbound 0) s trace h
    refine ⟨?_, ?_, hlast, hlast.symm.trans hinv⟩
    · intro v hv
      rw [hinv, expectedAddress, hv]
    · intro hn
      rw [hinv, expectedAddress, hn]

theorem network_address_invariant_witness :
    (∀ v, ({ idleUnbound 0 with m_mav := some vehicle7, netID := 7 } : Agent).m_mav = some v →
      ({ idleUnbound 0 with m_mav := some vehicle7, netID := 7 } : Agent).netID = v.id) ∧
    (({ idleUnbound 0 with m_mav := some vehicle7, netID := 7 } : Agent).m_mav = none →
      ({ idleUnbound 0 with m_mav := some vehicle7, netID := 7 } : Agent).netID = 0) ∧
    ({ idleUnbound 0 with m_mav := some vehicle7, netID := 7 } : Agent).netID
      = lastSetID bindTwiceCalls.flatten 0 ∧
    lastSetID bindTwiceCalls.flatten 0
      = expectedAddress { idleUnbound 0 with m_mav := some vehicle7, netID := 7 } :=
  (network_address_invariant 1).2.2 bindTwice
    { idleUnbound 0 with m_mav := some vehicle7, netID := 7 } bindTwiceCalls (by decide)

/-- C12: attaching a vehicle that is already the bound one returns the agent
unchanged and makes no call at all (no subscription, no removal of one, no new
address, no log line).  Hence, from every agent, attaching `v` twice ends in the
state a single attach ends in, and the second attach adds no call. -/
theorem bind_idempotent (delay : ℚ) (env env2 : Env) (v : Vehicle) (s : Agent) :
    (s.m_mav = some v → step delay env (Event.vehicleAdded (some v)) s = some (s, [])) ∧
    ∃ s1 calls, step delay env (Event.vehicleAdded (some v)) s = some (s1, calls) ∧
      step delay env2 (Event.vehicleAdded (some v)) s1 = some (s1, []) ∧
      run delay [(env, Event.vehicleAdded (some v)), (env2, Event.vehicleAdded (some v))] s
        = some (s1, [calls, []]) ∧
      [calls, []].flatten = calls := by
  constructor
  · intro hb
    exact vehicleAddedEvent_bound v s (by rw [hb]; exact ptrEq_self v)
  · cases hp : ptrEq s.m_mav (some v) with
    | true =>
      have h1 : step delay env (Event.vehicleAdded (some v)) s = some (s, []) :=
        vehicleAddedEvent_bound v s hp
      have h2 : step delay env2 (Event.vehicleAdded (some v)) s = some (s, []) :=
        vehicleAddedEvent_bound v s hp
      exact ⟨s, [], h1, h2, run_snoc delay _ env2 _ s s s [[]] [] (run_single delay env _ s s [] h1) h2,
        by simp⟩
    | false =>
      have h1 : step delay env (Event.vehicleAdded (some v)) s = _ :=
        vehicleAddedEvent_fresh v s hp
      have h2 : step delay env2 (Event.vehicleAdded (some v))
          { s with m_mav := some v, netID := v.id } = some (_, []) :=
        vehicleAddedEvent_bound v _ (ptrEq_self v)
      exact ⟨_, _, h1, h2,
        run_snoc delay _ env2 _ s _ _ _ [] (run_single delay env _ s _ _ h1) h2, by simp⟩

theorem bind_idempotent_witness :
    step 1 (envAlt 0) (Event.vehicleAdded (some vehicle7)) (agentIn STATE_MISSION 1 3)
      = some (agentIn STATE_MISSION 1 3, []) :=
  (bind_idempotent 1 (envAlt 0) (envAlt 0) vehicle7 (agentIn STATE_MISSION 1 3)).1 rfl

/-- C13: detaching a vehicle that is not the bound one (none is bound, or another
object is) returns the agent unchanged and makes no call; detaching the bound
vehicle clears the binding, removes the two subscriptions to its signals, sets
the Network address to `0` and leaves the phase and the working data as they
were. -/
theorem unbind_rule (delay : ℚ) (env : Env) (v : Vehicle) (s : Agent) :
    (s.m_mav = none → step delay env (Event.vehicleRemoved (some v)) s = some (s, [])) ∧
    (∀ w, s.m_mav = some w → w.ptr ≠ v.ptr →
      step delay env (Event.vehicleRemoved (some v)) s = some (s, [])) ∧
    (s.m_mav = some v →
      step delay env (Event.vehicleRemoved (some v)) s
        = some ({ s with m_mav := none, netID := 0 },
            [Effect.disconnectSig v Signal.armedChanged,
             Effect.disconnectSig v Signal.flightModeChanged,
             Effect.netSetID 0,
             Effect.qInfo ["MAV disconnected with ID: ", toString v.id]])) := by
  refine ⟨?_, ?_, ?_⟩
  · intro hn
    exact vehicleRemovedEvent_other v s (by rw [hn]; rfl)
  · intro w hw hne
    exact vehicleRemovedEvent_other v s (by rw [hw]; simp [ptrEq, hne])
  · intro hb
    have h := vehicleRemovedEvent_bound v s (by rw [hb]; exact ptrEq_self v)
    simp only [setMAV, hb] at h
    exact h

theorem unbind_rule_witness :
    step 1 (envAlt 0) (Event.vehicleRemoved (some vehicle7)) (idleUnbound 0)
        = some (idleUnbound 0, []) ∧
    step 1 (envAlt 0) (Event.vehicleRemoved (some { ptr := 2, id := 9 }))
        (agentIn STATE_TAKEOFF 0 0) = some (agentIn STATE_TAKEOFF 0 0, []) ∧
    step 1 (envAlt 0) (Event.vehicleRemoved (some vehicle7)) (agentIn STATE_TAKEOFF 0 0)
        = some ({ agentIn STATE_TAKEOFF 0 0 with m_mav := none, netID := 0 },
            [Effect.disconnectSig vehicle7 Signal.armedChanged,
             Effect.disconnectSig vehicle7 Signal.flightModeChanged,
             Effect.netSetID 0,
             Effect.qInfo ["MAV disconnected with ID: ", toString vehicle7.id]]) :=
  ⟨(unbind_rule 1 (envAlt 0) vehicle7 (idleUnbound 0)).1 rfl,
   (unbind_rule 1 (envAlt 0) { ptr := 2, id := 9 } (agentIn STATE_TAKEOFF 0 0)).2.1 vehicle7 rfl
     (by decide),
   (unbind_rule 1 (envAlt 0) vehicle7 (agentIn STATE_TAKEOFF 0 0)).2.2 rfl⟩

/-! ## Construction -/

/-- C14, evaluated on an object built in storage whose word for
`m_mission_state` holds `STATE_MISSION`: after the constructor and `startAgent`
no vehicle is bound and `stage` and `tick` are `0`, but the phase is
`STATE_MISSION`, not `STATE_IDLE`; in general the phase is whatever the storage
held, since neither the constructor nor `startAgent` assigns it. -/
theorem construct_phase_unassigned :
    (construct STATE_MISSION 3 9 0 0 1).1.m_mav = none ∧
    (construct STATE_MISSION 3 9 0 0 1).1.m_mission_data.stage = 0 ∧
    (construct STATE_MISSION 3 9 0 0 1).1.m_mission_data.tick = 0 ∧
    (construct STATE_MISSION 3 9 0 0 1).1.m_mission_state = STATE_MISSION ∧
    (construct STATE_MISSION 3 9 0 0 1).1.m_mission_state ≠ STATE_IDLE ∧
    ∀ (stored : EMissionState) (stage tick : Int) (address instanceArg : Nat) (delay : ℚ),
      (construct stored stage tick address instanceArg delay).1.m_mission_state = stored := by
  refine ⟨rfl, rfl, rfl, rfl, ?_, fun _ _ _ _ _ _ => rfl⟩
  intro h
  exact EMissionState.noConfusion (((rfl : (construct STATE_MISSION 3 9 0 0 1).1.m_mission_state
    = STATE_MISSION).symm.trans h))

/-! ## The phase changes only by the rules -/

theorem step_phase (delay : ℚ) (env : Env) (e : Event) (s s1 : Agent) (calls : List Effect)
    (h : step delay env e s = some (s1, calls)) :
    s1.m_mission_state = s.m_mission_state ∨
    (e = Event.timeout ∧
      ((s.m_mission_state = STATE_TAKEOFF ∧ s1.m_mission_state = STATE_MISSION) ∨
       (s.m_mission_state = STATE_MISSION ∧ s1.m_mission_state = STATE_LAND) ∨
       (s.m_mission_state = STATE_LAND ∧ s1.m_mission_state = STATE_IDLE))) ∨
    (e = Event.armedChanged false ∧ s1.m_mission_state = STATE_IDLE) ∨
    (e = Event.armedChanged true ∧ s1.m_mission_state = STATE_TAKEOFF) := by
  cases e with
  | vehicleAdded mav =>
    simp only [step, vehicleAddedEvent, setMAV] at h
    repeat' split at h
    all_goals
      cases h
      exact Or.inl rfl
  | vehicleRemoved mav =>
    simp only [step, vehicleRemovedEvent, setMAV] at h
    repeat' split at h
    all_goals
      cases h
      exact Or.inl rfl
  | armedChanged armed =>
    cases armed with
    | false =>
      simp only [step, armedChangedEvent] at h
      cases h
      exact Or.inr (Or.inr (Or.inl ⟨rfl, rfl⟩))
    | true =>
      simp only [step, armedChangedEvent, SMissionData.reset, Bool.not_true,
        Bool.false_eq_true, if_false] at h
      repeat' split at h
      all_goals
        cases h <;>
        first
        | exact Or.inl rfl
        | exact Or.inr (Or.inr (Or.inr ⟨rfl, rfl⟩))
  | flightModeChanged mode =>
    simp only [step, flightModeChangedEvent] at h
    repeat' split at h
    all_goals
      cases h <;> exact Or.inl rfl
  | dataReady srcID data =>
    simp only [step, dataReadyEvent, Option.some.injEq, Prod.mk.injEq] at h
    obtain ⟨rfl, -⟩ := h
    exact Or.inl rfl
  | timeout =>
    simp only [step, missionTracker, stateIdle, stateTakeoff, stateLand, stateMission] at h
    split at h
    · cases h
      exact Or.inl rfl
    · rename_i hph
      repeat' split at h
      all_goals
        cases h <;>
        first
        | exact Or.inl rfl
        | exact Or.inr (Or.inl ⟨rfl, Or.inl ⟨hph, rfl⟩⟩)
    · rename_i hph
      repeat' split at h
      all_goals
        cases h <;>
        first
        | exact Or.inl rfl
        | exact Or.inr (Or.inl ⟨rfl, Or.inr (Or.inl ⟨hph, rfl⟩)⟩)
    · rename_i hph
      repeat' split at h
      all_goals
        cases h <;>
        first
        | exact Or.inl rfl
        | exact Or.inr (Or.inl ⟨rfl, Or.inr (Or.inr ⟨hph, rfl⟩)⟩)

/-- C15: whenever a signal is processed and the phase after it differs from the
phase before, the signal is a tick taking `STATE_TAKEOFF` to `STATE_MISSION`,
`STATE_MISSION` to `STATE_LAND` or `STATE_LAND` to `STATE_IDLE`, or it is
`armedChanged(false)` ending in `STATE_IDLE`, or `armedChanged(true)` ending in
`STATE_TAKEOFF`.  So `STATE_MISSION` is entered only from `STATE_TAKEOFF` and
`STATE_LAND` only from `STATE_MISSION`, by a tick; a tick in `STATE_IDLE`
returns the agent unchanged with no call; attaching, detaching and inbound
messages always return with the phase unchanged, and a flight-mode notification
that returns leaves the phase unchanged. -/
theorem phase_changes_by_rules (delay : ℚ) :
    (∀ (env : Env) (e : Event) (s s1 : Agent) (calls : List Effect),
      step delay env e s = some (s1, calls) → s1.m_mission_state ≠ s.m_mission_state →
      (e = Event.timeout ∧
        ((s.m_mission_state = STATE_TAKEOFF ∧ s1.m_mission_state = STATE_MISSION) ∨
         (s.m_mission_state = STATE_MISSION ∧ s1.m_mission_state = STATE_LAND) ∨
         (s.m_mission_state = STATE_LAND ∧ s1.m_mission_state = STATE_IDLE))) ∨
      (e = Event.armedChanged false ∧ s1.m_mission_state = STATE_IDLE) ∨
      (e = Event.armedChanged true ∧ s1.m_mission_state = STATE_TAKEOFF)) ∧
    (∀ (env : Env) (e : Event) (s s1 : Agent) (calls : List Effect),
      step delay env e s = some (s1, calls) → s.m_mission_state ≠ STATE_MISSION →
      s1.m_mission_state = STATE_MISSION →
      e = Event.timeout ∧ s.m_mission_state = STATE_TAKEOFF) ∧
    (∀ (env : Env) (e : Event) (s s1 : Agent) (calls : List Effect),
      step delay env e s = some (s1, calls) → s.m_mission_state ≠ STATE_LAND →
      s1.m_mission_state = STATE_LAND →
      e = Event.timeout ∧ s.m_mission_state = STATE_MISSION) ∧
    (∀ (env : Env) (s : Agent), s.m_mission_state = STATE_IDLE →
      step delay env Event.timeout s = some (s, [])) ∧
    (∀ (env : Env) (mav : Option Vehicle) (s : Agent),
      (∃ s1 calls, step delay env (Event.vehicleAdded mav) s = some (s1, calls) ∧
        s1.m_mission_state = s.m_mission_state) ∧
      (∃ s1 calls, step delay env (Event.vehicleRemoved mav) s = some (s1, calls) ∧
        s1.m_mission_state = s.m_mission_state)) ∧
    (∀ (env : Env) (srcID : Fin 256) (data : String) (s : Agent),
      ∃ calls, step delay env (Event.dataReady srcID data) s = some (s, calls)) ∧
    (∀ (env : Env) (mode : String) (s s1 : Agent) (calls : List Effect),
      step delay env (Event.flightModeChanged mode) s = some (s1, calls) →
      s1.m_mission_state = s.m_mission_state) := by
  have hrule : ∀ (env : Env) (e : Event) (s s1 : Agent) (calls : List Effect),
      step delay env e s = some (s1, calls) → s1.m_mission_state ≠ s.m_mission_state →
      (e = Event.timeout ∧
        ((s.m_mission_state = STATE_TAKEOFF ∧ s1.m_mission_state = STATE_MISSION) ∨
         (s.m_mission_state = STATE_MISSION ∧ s1.m_mission_state = STATE_LAND) ∨
         (s.m_mission_state = STATE_LAND ∧ s1.m_mission_state = STATE_IDLE))) ∨
      (e = Event.armedChanged false ∧ s1.m_mission_state = STATE_IDLE) ∨
      (e = Event.armedChanged true ∧ s1.m_mission_state = STATE_TAKEOFF) := by
    intro env e s s1 calls h hne
    rcases step_phase delay env e s s1 calls h with h1 | h1
    · exact absurd h1 hne
    · exact h1
  refine ⟨hrule, ?_, ?_, ?_, ?_, ?_, ?_⟩
  · intro env e s s1 calls h hne hm
    rcases hrule env e s s1 calls h (by rw [hm]; exact fun hh => hne hh.symm) with h1 | h1 | h1
    · rcases h1 with ⟨he, h2 | h2 | h2⟩
      · exact ⟨he, h2.1⟩
      · rw [hm] at h2; exact absurd h2.2 (by decide)
      · rw [hm] at h2; exact absurd h2.2 (by decide)
    · rw [hm] at h1; exact absurd h1.2 (by decide)
    · rw [hm] at h1; exact absurd h1.2 (by decide)
  · intro env e s s1 calls h hne hm
    rcases hrule env e s s1 calls h (by rw [hm]; exact fun hh => hne hh.symm) with h1 | h1 | h1
    · rcases h1 with ⟨he, h2 | h2 | h2⟩
      · rw [hm] at h2; exact absurd h2.2 (by decide)
      · exact ⟨he, h2.1⟩
      · rw [hm] at h2; exact absurd h2.2 (by decide)
    · rw [hm] at h1; exact absurd h1.2 (by decide)
    · rw [hm] at h1; exact absurd h1.2 (by decide)
  · intro env s hs
    simp only [step, missionTracker, hs, stateIdle]
  · intro env mav s
    obtain ⟨⟨a, ca, ha⟩, ⟨r, cr, hr⟩⟩ := step_bind_total delay env mav s
    refine ⟨⟨a, ca, ha, ?_⟩, ⟨r, cr, hr, ?_⟩⟩
    · rcases step_phase delay env _ s a ca ha with h1 | ⟨he, -⟩ | ⟨he, -⟩ | ⟨he, -⟩
      · exact h1
      · exact Event.noConfusion he
      · exact Event.noConfusion he
      · exact Event.noConfusion he
    · rcases step_phase delay env _ s r cr hr with h1 | ⟨he, -⟩ | ⟨he, -⟩ | ⟨he, -⟩
      · exact h1
      · exact Event.noConfusion he
      · exact Event.noConfusion he
      · exact Event.noConfusion he
  · intro env srcID data s
    exact ⟨_, rfl⟩
  · intro env mode s s1 calls h
    rcases step_phase delay env _ s s1 calls h with h1 | ⟨he, -⟩ | ⟨he, -⟩ | ⟨he, -⟩
    · exact h1
    · exact Event.noConfusion he
    · exact Event.noConfusion he
    · exact Event.noConfusion he

theorem phase_changes_by_rules_witness :
    (Event.timeout = Event.timeout ∧
      (((agentIn STATE_TAKEOFF 0 0).m_mission_state = STATE_TAKEOFF ∧
          (agentIn STATE_MISSION 0 0).m_mission_state = STATE_MISSION) ∨
       ((agentIn STATE_TAKEOFF 0 0).m_mission_state = STATE_MISSION ∧
          (agentIn STATE_MISSION 0 0).m_mission_state = STATE_LAND) ∨
       ((agentIn STATE_TAKEOFF 0 0).m_mission_state = STATE_LAND ∧
          (agentIn STATE_MISSION 0 0).m_mission_state = STATE_IDLE))) ∨
    (Event.timeout = Event.armedChanged false ∧
      (agentIn STATE_MISSION 0 0).m_mission_state = STATE_IDLE) ∨
    (Event.timeout = Event.armedChanged true ∧
      (agentIn STATE_MISSION 0 0).m_mission_state = STATE_TAKEOFF) :=
  (phase_changes_by_rules 1).1 (envAlt (9 / 2)) Event.timeout (agentIn STATE_TAKEOFF 0 0)
    (agentIn STATE_MISSION 0 0) [Effect.qInfo ["Takeoff completed."]]
    (stateTakeoff_reached (envAlt (9 / 2)) (agentIn STATE_TAKEOFF 0 0) vehicle7 rfl
      (by simp [envAlt, Dbl.gt]; norm_num))
    (by decide)

/-! ## Inbound messages -/

/-- C16: for every agent, every source identity in `0..255` and every payload,
an inbound message (the slot serves both channels) returns the agent unchanged
and its only call is the log line: no vehicle command, no arm command, no
outbound message.  This holds in particular for the broadcast identity 255 and
for the identity one below that of the bound vehicle. -/
theorem inbound_message_noop (delay : ℚ) (env : Env) (srcID : Fin 256) (data : String)
    (s : Agent) :
    step delay env (Event.dataReady srcID data) s
      = some (s, [Effect.qInfo ["Data received from srcID=", toString srcID.val, ":\n", data]]) ∧
    (∃ calls, step delay env (Event.dataReady srcID data) s = some (s, calls) ∧
      calls.filter Effect.isVehicleCommand = [] ∧ calls.filter Effect.isArm = [] ∧
      calls.filter Effect.isMessage = [] ∧
      calls.all (fun c => c matches Effect.qInfo _) = true) ∧
    (∃ calls, step delay env (Event.dataReady ⟨BROADCAST_ID, by decide⟩ data) s = some (s, calls) ∧
      calls.filter Effect.isArm = []) := by
  exact ⟨rfl, ⟨_, rfl, rfl, rfl, rfl, rfl⟩, ⟨_, rfl, rfl⟩⟩

/-! ## The counters in reachable states -/

theorem stateMission_counting (delay : ℚ) (env : Env) (s s1 : Agent) (calls : List Effect)
    (hs : s.m_mission_data.stage = 0 ∨ s.m_mission_data.stage = 1)
    (h : stateMission delay env s = some (s1, calls)) :
    s1.m_mission_data.tick = wrapInt (s.m_mission_data.tick + 1) ∧
    ((hoverDone delay (wrapInt (s.m_mission_data.tick + 1)) = false ∧
        s1.m_mission_state = s.m_mission_state ∧ s1.m_mission_data.stage = 1) ∨
     (hoverDone delay (wrapInt (s.m_mission_data.tick + 1)) = true ∧
        s1.m_mission_state = STATE_LAND ∧ s1.m_mission_data.stage = 2)) := by
  have hstage : (if s.m_mission_data.stage = 0 then s.m_mission_data.stage + 1
      else s.m_mission_data.stage) = 1 := by
    rcases hs with h0 | h1
    · rw [if_pos h0, h0]; rfl
    · rw [if_neg (by rw [h1]; decide), h1]
  simp only [stateMission, hstage, if_true] at h
  cases hdone : hoverDone delay (wrapInt (s.m_mission_data.tick + 1)) with
  | false =>
    rw [hdone] at h
    simp only [Bool.false_eq_true, if_false] at h
    cases h
    exact ⟨rfl, Or.inl ⟨rfl, rfl, rfl⟩⟩
  | true =>
    rw [hdone] at h
    simp only [if_true] at h
    split at h
    · exact absurd h (by simp)
    · cases h
      exact ⟨rfl, Or.inr ⟨rfl, rfl, rfl⟩⟩

theorem CountersTrack_of_eq (N : ℕ) (s s1 : Agent) (count : ℕ)
    (hph : s1.m_mission_state = s.m_mission_state)
    (hst : s1.m_mission_data.stage = s.m_mission_data.stage)
    (htk : s1.m_mission_data.tick = s.m_mission_data.tick)
    (h : CountersTrack N s count) : CountersTrack N s1 count := by
  unfold CountersTrack CountersOk at *
  rw [hph, hst, htk]
  exact h

theorem CountersTrack_idle (N : ℕ) (s s1 : Agent) (count count1 : ℕ)
    (hph : s1.m_mission_state = STATE_IDLE)
    (hst : s1.m_mission_data.stage = s.m_mission_data.stage)
    (htk : s1.m_mission_data.tick = s.m_mission_data.tick)
    (h : CountersTrack N s count) : CountersTrack N s1 count1 := by
  obtain ⟨⟨h1, h2, h3, h4, -, -, -⟩, -⟩ := h
  unfold CountersTrack CountersOk
  rw [hph, hst, htk]
  refine ⟨⟨h1, h2, h3, h4, ?_, ?_, ?_⟩, ?_⟩
  · intro hh; exact absurd hh (by decide)
  · intro hh; exact absurd hh (by decide)
  · intro hh; exact absurd hh (by decide)
  · rintro (hh | hh) <;> exact absurd hh (by decide)

theorem CountersTrack_takeoff (N : ℕ) (s1 : Agent) (count1 : ℕ)
    (hph : s1.m_mission_state = STATE_TAKEOFF)
    (hst : s1.m_mission_data.stage = 0) (htk : s1.m_mission_data.tick = 0) :
    CountersTrack N s1 count1 := by
  unfold CountersTrack CountersOk
  rw [hph, hst, htk]
  refine ⟨⟨le_refl _, by decide, le_refl _, Int.natCast_nonneg N, ?_, ?_, ?_⟩, ?_⟩
  · intro _; exact ⟨rfl, rfl⟩
  · intro hh; exact absurd hh (by decide)
  · intro hh; exact absurd hh (by decide)
  · rintro (hh | hh) <;> exact absurd hh (by decide)

theorem CountersTrack_mission_entry (N : ℕ) (s1 : Agent)
    (hph : s1.m_mission_state = STATE_MISSION)
    (hst : s1.m_mission_data.stage = 0) (htk : s1.m_mission_data.tick = 0) :
    CountersTrack N s1 0 := by
  unfold CountersTrack CountersOk
  rw [hph, hst, htk]
  refine ⟨⟨le_refl _, by decide, le_refl _, Int.natCast_nonneg N, ?_, ?_, ?_⟩, ?_⟩
  · intro hh; exact absurd hh (by decide)
  · intro _; exact Or.inl ⟨rfl, rfl⟩
  · intro hh; exact absurd hh (by decide)
  · intro _; rfl

theorem step_counters_frame (delay : ℚ) (env : Env) (e : Event) (s s1 : Agent)
    (calls : List Effect) (h : step delay env e s = some (s1, calls))
    (htick : e ≠ Event.timeout) (harm : ∀ armed, e ≠ Event.armedChanged armed) :
    s1.m_mission_state = s.m_mission_state ∧
    s1.m_mission_data.stage = s.m_mission_data.stage ∧
    s1.m_mission_data.tick = s.m_mission_data.tick := by
  cases e with
  | vehicleAdded mav =>
    simp only [step, vehicleAddedEvent, setMAV] at h
    repeat' split at h
    all_goals
      cases h
      exact ⟨rfl, rfl, rfl⟩
  | vehicleRemoved mav =>
    simp only [step, vehicleRemovedEvent, setMAV] at h
    repeat' split at h
    all_goals
      cases h
      exact ⟨rfl, rfl, rfl⟩
  | armedChanged armed => exact absurd rfl (harm armed)
  | flightModeChanged mode =>
    simp only [step, flightModeChangedEvent] at h
    repeat' split at h
    all_goals
      cases h <;> exact ⟨rfl, rfl, rfl⟩
  | dataReady srcID data =>
    simp only [step, dataReadyEvent, Option.some.injEq, Prod.mk.injEq] at h
    obtain ⟨rfl, -⟩ := h
    exact ⟨rfl, rfl, rfl⟩
  | timeout => exact absurd rfl htick

theorem armedChanged_CountersTrack (N : ℕ) (env : Env) (armed : Bool) (s s1 : Agent)
    (calls : List Effect) (count : ℕ) (h0 : CountersTrack N s count)
    (h : armedChangedEvent env armed s = some (s1, calls)) : CountersTrack N s1 count := by
  cases armed with
  | false =>
    simp only [armedChangedEvent] at h
    cases h
    exact CountersTrack_idle N s _ count count rfl rfl rfl h0
  | true =>
    simp only [armedChangedEvent, SMissionData.reset, Bool.not_true, Bool.false_eq_true,
      if_false] at h
    repeat' split at h
    all_goals
      cases h <;>
      first
      | exact h0
      | exact CountersTrack_takeoff N _ count rfl rfl rfl

theorem stateTakeoff_CountersTrack (N : ℕ) (env : Env) (s s1 : Agent) (calls : List Effect)
    (count : ℕ) (h0 : CountersTrack N s count) (hp : s.m_mission_state = STATE_TAKEOFF)
    (h : stateTakeoff env s = some (s1, calls)) :
    CountersTrack N s1 (countAfter Event.timeout STATE_TAKEOFF s1.m_mission_state count) := by
  obtain ⟨hs0, ht0⟩ := h0.1.2.2.2.2.1 hp
  simp only [stateTakeoff] at h
  repeat' split at h
  · exact absurd h (by simp)
  · cases h
    have hc : countAfter Event.timeout STATE_TAKEOFF STATE_MISSION count = 0 := rfl
    show CountersTrack N _ (countAfter Event.timeout STATE_TAKEOFF STATE_MISSION count)
    rw [hc]
    exact CountersTrack_mission_entry N _ rfl rfl ht0
  · cases h
    have hc : countAfter Event.timeout STATE_TAKEOFF s.m_mission_state count = count := by
      rw [hp]; rfl
    rw [hc]
    exact h0

theorem stateLand_CountersTrack (N : ℕ) (env : Env) (s s1 : Agent) (calls : List Effect)
    (count : ℕ) (h0 : CountersTrack N s count)
    (h : stateLand env s = some (s1, calls)) : CountersTrack N s1 count := by
  simp only [stateLand] at h
  repeat' split at h
  · exact absurd h (by simp)
  · cases h
    exact CountersTrack_idle N s _ count count rfl rfl rfl h0
  · cases h
    exact h0

theorem stateMission_CountersTrack (delay : ℚ) (hN : 1 ≤ hoverTicks delay)
    (hmax : hoverTicks delay ≤ 2147483647) (env : Env) (s s1 : Agent)
    (calls : List Effect) (count : ℕ) (h0 : CountersTrack (hoverTicks delay) s count)
    (hp : s.m_mission_state = STATE_MISSION)
    (h : stateMission delay env s = some (s1, calls)) :
    CountersTrack (hoverTicks delay) s1 (count + 1) := by
  have htc : s.m_mission_data.tick = (count : Int) := h0.2 (Or.inl hp)
  have hM := h0.1.2.2.2.2.2.1 hp
  have hs : s.m_mission_data.stage = 0 ∨ s.m_mission_data.stage = 1 := by
    rcases hM with ⟨a, -⟩ | ⟨a, -⟩
    · exact Or.inl a
    · exact Or.inr a
  have hlt : s.m_mission_data.tick < (hoverTicks delay : Int) := by
    rcases hM with ⟨-, b⟩ | ⟨-, -, b⟩
    · rw [b]; exact_mod_cast hN
    · exact b
  have hge : 0 ≤ s.m_mission_data.tick := h0.1.2.2.1
  have hw : wrapInt (s.m_mission_data.tick + 1) = s.m_mission_data.tick + 1 :=
    wrapInt_eq _ (by omega) (by omega)
  have hcount := stateMission_counting delay env s s1 calls hs h
  rw [hw] at hcount
  obtain ⟨htk, hcase⟩ := hcount
  unfold CountersTrack CountersOk
  rcases hcase with ⟨hdone, hph, hst⟩ | ⟨hdone, hph, hst⟩
  · have hnot : ¬ ((hoverTicks delay : Int) ≤ s.m_mission_data.tick + 1) := by
      intro hh
      rw [(hoverDone_iff delay hN _).mpr hh] at hdone
      exact absurd hdone (by decide)
    rw [hph, hp, hst, htk]
    refine ⟨⟨by decide, by decide, by omega, by omega, ?_, ?_, ?_⟩, ?_⟩
    · intro hh; exact absurd hh (by decide)
    · intro _; exact Or.inr ⟨rfl, by omega, by omega⟩
    · intro hh; exact absurd hh (by decide)
    · intro _; rw [htc]; push_cast; rfl
  · have hle : (hoverTicks delay : Int) ≤ s.m_mission_data.tick + 1 :=
      (hoverDone_iff delay hN _).mp hdone
    rw [hph, hst, htk]
    refine ⟨⟨by decide, by decide, by omega, by omega, ?_, ?_, ?_⟩, ?_⟩
    · intro hh; exact absurd hh (by decide)
    · intro hh; exact absurd hh (by decide)
    · intro _; exact ⟨rfl, by omega⟩
    · intro _; rw [htc]; push_cast; rfl

theorem step_CountersTrack (delay : ℚ) (hN : 1 ≤ hoverTicks delay)
    (hmax : hoverTicks delay ≤ 2147483647) (env : Env) (e : Event)
    (s s1 : Agent) (calls : List Effect) (count : ℕ)
    (h0 : CountersTrack (hoverTicks delay) s count)
    (h : step delay env e s = some (s1, calls)) :
    CountersTrack (hoverTicks delay) s1
      (countAfter e s.m_mission_state s1.m_mission_state count) := by
  cases e with
  | vehicleAdded mav =>
    obtain ⟨a, b, c⟩ := step_counters_frame delay env _ s s1 calls h
      (fun hh => Event.noConfusion hh) (fun _ hh => Event.noConfusion hh)
    exact CountersTrack_of_eq _ s s1 count a b c h0
  | vehicleRemoved mav =>
    obtain ⟨a, b, c⟩ := step_counters_frame delay env _ s s1 calls h
      (fun hh => Event.noConfusion hh) (fun _ hh => Event.noConfusion hh)
    exact CountersTrack_of_eq _ s s1 count a b c h0
  | armedChanged armed =>
    exact armedChanged_CountersTrack _ env armed s s1 calls count h0 h
  | flightModeChanged mode =>
    obtain ⟨a, b, c⟩ := step_counters_frame delay env _ s s1 calls h
      (fun hh => Event.noConfusion hh) (fun _ hh => Event.noConfusion hh)
    exact CountersTrack_of_eq _ s s1 count a b c h0
  | dataReady srcID data =>
    obtain ⟨a, b, c⟩ := step_counters_frame delay env _ s s1 calls h
      (fun hh => Event.noConfusion hh) (fun _ hh => Event.noConfusion hh)
    exact CountersTrack_of_eq _ s s1 count a b c h0
  | timeout =>
    simp only [step, missionTracker] at h
    cases hp : s.m_mission_state with
    | STATE_IDLE =>
      rw [hp] at h
      simp only [stateIdle] at h
      cases h
      exact h0
    | STATE_TAKEOFF =>
      rw [hp] at h
      exact stateTakeoff_CountersTrack _ env s s1 calls count h0 hp h
    | STATE_MISSION =>
      rw [hp] at h
      exact stateMission_CountersTrack delay hN hmax env s s1 calls count h0 hp h
    | STATE_LAND =>
      rw [hp] at h
      exact stateLand_CountersTrack _ env s s1 calls count h0 h

theorem run_CountersTrack (delay : ℚ) (hN : 1 ≤ hoverTicks delay)
    (hmax : hoverTicks delay ≤ 2147483647) (es : List (Env × Event))
    (s0 s : Agent) (trace : List (List Effect)) (count : ℕ)
    (h0 : CountersTrack (hoverTicks delay) s0 count)
    (h : run delay es s0 = some (s, trace)) :
    CountersTrack (hoverTicks delay) s (missionTicks delay es s0 count) := by
  induction es generalizing s0 trace count with
  | nil =>
    simp only [run, Option.some.injEq, Prod.mk.injEq] at h
    obtain ⟨rfl, -⟩ := h
    exact h0
  | cons x rest ih =>
    obtain ⟨env, e⟩ := x
    simp only [run] at h
    cases hstep1 : step delay env e s0 with
    | none => rw [hstep1] at h; exact absurd h (by simp)
    | some r =>
      obtain ⟨s1, c1⟩ := r
      rw [hstep1] at h
      simp only at h
      cases hrun : run delay rest s1 with
      | none => rw [hrun] at h; exact absurd h (by simp)
      | some r2 =>
        obtain ⟨s2, t2⟩ := r2
        rw [hrun] at h
        simp only [Option.some.injEq, Prod.mk.injEq] at h
        obtain ⟨rfl, -⟩ := h
        simp only [missionTicks, hstep1]
        exact ih s1 t2 _ (step_CountersTrack delay hN hmax env e s0 s1 c1 count h0 hstep1) hrun

theorem CountersTrack_initial (N : ℕ) (s0 : Agent) (hp : s0.m_mission_state = STATE_IDLE)
    (hs : s0.m_mission_data.stage = 0) (ht : s0.m_mission_data.tick = 0) :
    CountersTrack N s0 0 := by
  unfold CountersTrack CountersOk
  rw [hp, hs, ht]
  refine ⟨⟨le_refl _, by decide, le_refl _, Int.natCast_nonneg N, ?_, ?_, ?_⟩, ?_⟩
  · intro hh; exact absurd hh (by decide)
  · intro hh; exact absurd hh (by decide)
  · intro hh; exact absurd hh (by decide)
  · rintro (hh | hh) <;> exact absurd hh (by decide)

theorem shortFlight_run :
    run 20 shortFlight (idleUnbound 0) = some (agentIn STATE_LAND 2 1, shortFlightCalls) := by
  simp [run, shortFlight, shortFlightCalls, step, vehicleAddedEvent, setMAV, ptrEq, idleUnbound,
    vehicle7, armedChangedEvent, envAlt, Dbl.gt, POINT_ZONE, TAKEOFF_ALT, SMissionData.reset,
    missionTracker, stateTakeoff, stateMission, hoverDone, hoverQuotient_twenty, Dbl.le,
    wrapInt_one, nowOf, agentIn]
  norm_num
  decide

theorem takeoffScenario_run (delay : ℚ) :
    run delay takeoffScenario (idleUnbound 0)
      = some (agentIn STATE_MISSION 0 0,
          [[Effect.connectSig vehicle7 Signal.armedChanged,
            Effect.connectSig vehicle7 Signal.flightModeChanged,
            Effect.netSetID 7, Effect.qInfo ["New MAV connected with ID: ", "7"]],
           [Effect.qInfo ["Mission starts..."],
            Effect.sendMavCommand 1 MavCmd.MAV_CMD_NAV_TAKEOFF true [0, 0, 0, 0, 0, 0, 5]],
           [Effect.qInfo ["Takeoff completed."]]]) := by
  simp [run, takeoffScenario, step, vehicleAddedEvent, setMAV, ptrEq, idleUnbound,
    vehicle7, armedChangedEvent, envAlt, Dbl.gt, POINT_ZONE, TAKEOFF_ALT, SMissionData.reset,
    missionTracker, stateTakeoff, agentIn]
  norm_num
  decide

/-- C17, refuted as stated.  At the tick period `2.0 / 3`, where
`N = ceil(20 / p) = 31`, the state reached by attaching, arming, leaving
`STATE_TAKEOFF` and 30 ticks of hover is in `STATE_LAND` with `tick = 30`, not
`N`.  At the tick period `2 ^ (-30)`, where `N = 21474836480`, the state reached
after `2 ^ 31` ticks of hover is in `STATE_MISSION` with
`tick = -2147483648`, below `0`. -/
theorem reachable_counters_counterexample :
    ⌈20 / twoThirds⌉₊ = 31 ∧
    (∃ s trace,
      run twoThirds (takeoffScenario ++ ticks (fun _ => envAlt 5) 30) (idleUnbound 0)
        = some (s, trace) ∧
      s.m_mission_state = STATE_LAND ∧ s.m_mission_data.tick = 30 ∧
      s.m_mission_data.tick ≠ ((⌈20 / twoThirds⌉₊ : ℕ) : Int)) ∧
    (∃ s trace,
      run tinyDelay (takeoffScenario ++ ticks (fun _ => envAlt 5) 2147483648) (idleUnbound 0)
        = some (s, trace) ∧
      s.m_mission_state = STATE_MISSION ∧ s.m_mission_data.tick = -2147483648 ∧
      ¬ (0 ≤ s.m_mission_data.tick)) := by
  refine ⟨ceil_twoThirds, ?_, ?_⟩
  · have h := run_landing twoThirds (by rw [hoverTicks_twoThirds]; decide)
      (by rw [hoverTicks_twoThirds]; decide) (fun _ => envAlt 5) (agentIn STATE_MISSION 0 0)
      vehicle7 rfl rfl
    rw [hoverTicks_twoThirds, hovering_zero _ rfl rfl] at h
    refine ⟨_, _, run_append_some twoThirds _ _ _ _ _ _ _ (takeoffScenario_run twoThirds) h,
      rfl, rfl, ?_⟩
    rw [ceil_twoThirds]
    decide
  · obtain ⟨s1, tr, hrun, hp, -, ht⟩ := run_overflow tinyDelay 21474836480 hoverQuotient_tiny
      (by norm_num) (fun _ => envAlt 5) (agentIn STATE_MISSION 0 0) rfl (Or.inl rfl)
      (by decide) (by decide) 2147483648
    have hv : s1.m_mission_data.tick = -2147483648 := by
      rw [ht]
      decide
    refine ⟨s1, _, run_append_some tinyDelay _ _ _ _ _ _ _ (takeoffScenario_run tinyDelay) hrun,
      hp, hv, ?_⟩
    rw [hv]
    decide

/-- C17, amended: let `N` be the least whole number that is at least the `double`
quotient `20 * 1.0 / delay` the source computes, with `1 <= N <= INT_MAX`.  In
every state reached from phase `STATE_IDLE` with `stage = 0`, `tick = 0` by a
sequence of signals that has been processed (ticks with any altitude readings,
arming signals, flight-mode notifications, messages, also attach and detach):
`0 <= stage <= 2` and `0 <= tick <= N`; in `STATE_TAKEOFF` `stage = 0` and
`tick = 0`; in `STATE_MISSION` either `stage = 0` and `tick = 0`, or `stage = 1`
and `1 <= tick < N`; in `STATE_LAND` `stage = 2` and `tick = N`.  In
`STATE_MISSION` and `STATE_LAND` `tick` is the number of ticks processed in
`STATE_MISSION` since that phase was entered, so a mission that reaches
`STATE_LAND` spent exactly `N` ticks there. -/
theorem reachable_counters (delay : ℚ) (hN : 1 ≤ hoverTicks delay)
    (hmax : hoverTicks delay ≤ 2147483647) (es : List (Env × Event))
    (s0 s : Agent) (trace : List (List Effect))
    (hp : s0.m_mission_state = STATE_IDLE) (hs : s0.m_mission_data.stage = 0)
    (ht : s0.m_mission_data.tick = 0) (h : run delay es s0 = some (s, trace)) :
    (∃ t : ℚ, hoverQuotient delay = Dbl.fin t ∧ 0 < t ∧ hoverTicks delay = ⌈t⌉₊) ∧
    0 ≤ s.m_mission_data.stage ∧ s.m_mission_data.stage ≤ 2 ∧
    0 ≤ s.m_mission_data.tick ∧ s.m_mission_data.tick ≤ (hoverTicks delay : Int) ∧
    (s.m_mission_state = STATE_TAKEOFF →
      s.m_mission_data.stage = 0 ∧ s.m_mission_data.tick = 0) ∧
    (s.m_mission_state = STATE_MISSION →
      (s.m_mission_data.stage = 0 ∧ s.m_mission_data.tick = 0) ∨
      (s.m_mission_data.stage = 1 ∧ 1 ≤ s.m_mission_data.tick ∧
        s.m_mission_data.tick < (hoverTicks delay : Int))) ∧
    (s.m_mission_state = STATE_LAND →
      s.m_mission_data.stage = 2 ∧ s.m_mission_data.tick = (hoverTicks delay : Int)) ∧
    (s.m_mission_state = STATE_MISSION →
      s.m_mission_data.tick = (missionTicks delay es s0 0 : Int)) ∧
    (s.m_mission_state = STATE_LAND → missionTicks delay es s0 0 = hoverTicks delay) := by
  obtain ⟨⟨h1, h2, h3, h4, hT, hM, hL⟩, htr⟩ :=
    run_CountersTrack delay hN hmax es s0 s trace 0 (CountersTrack_initial _ s0 hp hs ht) h
  refine ⟨hoverTicks_quotient delay hN, h1, h2, h3, h4, hT, hM, hL,
    fun hm => htr (Or.inl hm), ?_⟩
  intro hl
  have ha := htr (Or.inr hl)
  have hb := (hL hl).2
  rw [ha] at hb
  exact_mod_cast hb

theorem reachable_counters_witness :
    1 ≤ hoverTicks 20 ∧ hoverTicks 20 ≤ 2147483647 ∧
    ((agentIn STATE_LAND 2 1).m_mission_state = STATE_LAND →
      (agentIn STATE_LAND 2 1).m_mission_data.stage = 2 ∧
      (agentIn STATE_LAND 2 1).m_mission_data.tick = (hoverTicks 20 : Int)) ∧
    ((agentIn STATE_LAND 2 1).m_mission_state = STATE_LAND →
      missionTicks 20 shortFlight (idleUnbound 0) 0 = hoverTicks 20) :=
  ⟨by rw [hoverTicks_twenty], by rw [hoverTicks_twenty]; decide,
   (reachable_counters 20 (by rw [hoverTicks_twenty]) (by rw [hoverTicks_twenty]; decide)
      shortFlight (idleUnbound 0) (agentIn STATE_LAND 2 1)
      shortFlightCalls rfl rfl rfl shortFlight_run).2.2.2.2.2.2.2.1,
   (reachable_counters 20 (by rw [hoverTicks_twenty]) (by rw [hoverTicks_twenty]; decide)
      shortFlight (idleUnbound 0) (agentIn STATE_LAND 2 1)
      shortFlightCalls rfl rfl rfl shortFlight_run).2.2.2.2.2.2.2.2.2⟩

/-! ## The time stamp of the Info message -/

theorem nowOf_lt (env : Env) : nowOf env < 2 ^ 32 := by
  unfold nowOf
  have h1 : (0 : Int) ≤ env.currentMSecsSinceEpoch % (2 ^ 32 : Int) :=
    Int.emod_nonneg _ (by norm_num)
  have h2 : env.currentMSecsSinceEpoch % (2 ^ 32 : Int) < 2 ^ 32 :=
    Int.emod_lt_of_pos _ (by norm_num)
  omega

theorem nowOf_cast (env : Env) :
    (nowOf env : Int) = env.currentMSecsSinceEpoch % (2 ^ 32 : Int) := by
  unfold nowOf
  exact Int.toNat_of_nonneg (Int.emod_nonneg _ (by norm_num))

theorem nowOf_congr (env1 env2 : Env) (k : Int)
    (h : env2.currentMSecsSinceEpoch = env1.currentMSecsSinceEpoch + k * 2 ^ 32) :
    nowOf env2 = nowOf env1 := by
  unfold nowOf
  rw [h, Int.add_mul_emod_self]

theorem stateMission_congr (delay : ℚ) (env1 env2 : Env) (s : Agent)
    (h : nowOf env2 = nowOf env1) : stateMission delay env2 s = stateMission delay env1 s := by
  simp only [stateMission, h]

theorem stateMission_info (delay : ℚ) (env : Env) (s s1 : Agent) (calls : List Effect)
    (hs : s.m_mission_data.stage = 0 ∨ s.m_mission_data.stage = 1)
    (h : stateMission delay env s = some (s1, calls)) :
    calls.filterMap Effect.infoOf
      = [infoPayload (nowOf env) (wrapInt (s.m_mission_data.tick + 1))] := by
  have hstage : (if s.m_mission_data.stage = 0 then s.m_mission_data.stage + 1
      else s.m_mission_data.stage) = 1 := by
    rcases hs with h0 | h1
    · rw [if_pos h0, h0]; rfl
    · rw [if_neg (by rw [h1]; decide), h1]
  simp only [stateMission, hstage, if_true] at h
  repeat' split at h
  all_goals
    cases h <;> rfl

theorem stateMission_total (delay : ℚ) (env : Env) (s : Agent) (v : Vehicle)
    (hb : s.m_mav = some v) : ∃ s1 calls, stateMission delay env s = some (s1, calls) := by
  simp only [stateMission, hb]
  repeat' split
  all_goals exact ⟨_, _, rfl⟩

/-- Why three decimals show `m / 1000` exactly: every number closer to
`m / 1000` than half a thousandth, such as the `double` nearest to it for
`m < 2^32`, rounds to `m` thousandths. -/
theorem round_thousandths (m : ℕ) (x : ℚ) (h : |x - (m : ℚ) / 1000| < 1 / 2000) :
    round (x * 1000) = (m : Int) := by
  rw [abs_lt] at h
  rw [round_eq, Int.floor_eq_iff]
  constructor
  · push_cast
    linarith [h.1]
  · push_cast
    linarith [h.2]

/-- C18: the Info message of a Mission tick (stage 0 or 1) carries, with `ms` the
clock reading and `m = ms mod 2^32`, the decimal of `m div 1000`, a point,
`m mod 1000` padded with zeros to three digits, the text `" The tick is: "` and
the decimal of the new tick number (`tick + 1`, as an `int`); with a bound
vehicle the tick returns.  Two readings that differ by a multiple of
`2^32` give the same `m`, the same payload and the same result of the tick.
For every reading `ms >= 2^32` the seconds shown, `m / 1000`, are less than the
true `ms / 1000`. -/
theorem info_timestamp_low32 (delay : ℚ) (env : Env) (s : Agent) :
    (nowOf env : Int) = env.currentMSecsSinceEpoch % (2 ^ 32 : Int) ∧
    (∀ (s1 : Agent) (calls : List Effect),
      s.m_mission_data.stage = 0 ∨ s.m_mission_data.stage = 1 →
      stateMission delay env s = some (s1, calls) →
      calls.filterMap Effect.infoOf
        = [toString (nowOf env / 1000) ++ "." ++
            ((if nowOf env % 1000 < 10 then "00" else if nowOf env % 1000 < 100 then "0" else "")
              ++ toString (nowOf env % 1000)) ++
            " The tick is: " ++ toString (wrapInt (s.m_mission_data.tick + 1))]) ∧
    (-2147483648 ≤ s.m_mission_data.tick + 1 → s.m_mission_data.tick + 1 ≤ 2147483647 →
      wrapInt (s.m_mission_data.tick + 1) = s.m_mission_data.tick + 1) ∧
    (∀ v, s.m_mav = some v → ∃ s1 calls, stateMission delay env s = some (s1, calls)) ∧
    (∀ (env2 : Env) (k : Int),
      env2.currentMSecsSinceEpoch = env.currentMSecsSinceEpoch + k * 2 ^ 32 →
      nowOf env2 = nowOf env ∧
      (∀ tick, infoPayload (nowOf env2) tick = infoPayload (nowOf env) tick) ∧
      stateMission delay env2 s = stateMission delay env s) ∧
    ((2 : Int) ^ 32 ≤ env.currentMSecsSinceEpoch →
      printedSeconds (nowOf env) < (env.currentMSecsSinceEpoch : ℚ) / 1000 ∧
      printedSeconds (nowOf env) ≠ (env.currentMSecsSinceEpoch : ℚ) / 1000) := by
  refine ⟨nowOf_cast env, ?_, fun h1 h2 => wrapInt_eq _ h1 h2,
    fun v hb => stateMission_total delay env s v hb, ?_, ?_⟩
  · intro s1 calls hs h
    exact stateMission_info delay env s s1 calls hs h
  · intro env2 k hk
    have hn := nowOf_congr env env2 k hk
    exact ⟨hn, fun tick => by rw [hn], stateMission_congr delay env env2 s hn⟩
  · intro hbig
    have hlt : (nowOf env : Int) < env.currentMSecsSinceEpoch := by
      have := nowOf_lt env
      omega
    have hq : ((nowOf env : ℕ) : ℚ) < (env.currentMSecsSinceEpoch : ℚ) := by
      exact_mod_cast hlt
    have hdiv : printedSeconds (nowOf env) < (env.currentMSecsSinceEpoch : ℚ) / 1000 := by
      unfold printedSeconds
      exact div_lt_div_of_pos_right hq (by norm_num)
    exact ⟨hdiv, ne_of_lt hdiv⟩

theorem info_timestamp_low32_witness :
    [Effect.qInfo ["Starting measurement"], Effect.powerSendData PwrKind.PWR_START "",
      Effect.powerSendData PwrKind.PWR_INFO "1.234 The tick is: 1"].filterMap Effect.infoOf
      = [toString (nowOf { envAlt 5 with currentMSecsSinceEpoch := 2 ^ 32 + 1234 } / 1000) ++ "." ++
          ((if nowOf { envAlt 5 with currentMSecsSinceEpoch := 2 ^ 32 + 1234 } % 1000 < 10 then "00"
            else if nowOf { envAlt 5 with currentMSecsSinceEpoch := 2 ^ 32 + 1234 } % 1000 < 100
              then "0" else "")
            ++ toString (nowOf { envAlt 5 with currentMSecsSinceEpoch := 2 ^ 32 + 1234 } % 1000)) ++
          " The tick is: " ++
          toString (wrapInt ((agentIn STATE_MISSION 0 0).m_mission_data.tick + 1))] ∧
    wrapInt ((agentIn STATE_MISSION 0 0).m_mission_data.tick + 1)
      = (agentIn STATE_MISSION 0 0).m_mission_data.tick + 1 ∧
    (nowOf { envAlt 5 with currentMSecsSinceEpoch := 1234 }
        = nowOf { envAlt 5 with currentMSecsSinceEpoch := 2 ^ 32 + 1234 } ∧
      (∀ tick, infoPayload (nowOf { envAlt 5 with currentMSecsSinceEpoch := 1234 }) tick
        = infoPayload (nowOf { envAlt 5 with currentMSecsSinceEpoch := 2 ^ 32 + 1234 }) tick) ∧
      stateMission 1 { envAlt 5 with currentMSecsSinceEpoch := 1234 } (agentIn STATE_MISSION 0 0)
        = stateMission 1 { envAlt 5 with currentMSecsSinceEpoch := 2 ^ 32 + 1234 }
            (agentIn STATE_MISSION 0 0)) ∧
    (printedSeconds (nowOf { envAlt 5 with currentMSecsSinceEpoch := 2 ^ 32 + 1234 })
        < (({ envAlt 5 with currentMSecsSinceEpoch := 2 ^ 32 + 1234 } : Env).currentMSecsSinceEpoch
            : ℚ) / 1000 ∧
      printedSeconds (nowOf { envAlt 5 with currentMSecsSinceEpoch := 2 ^ 32 + 1234 })
        ≠ (({ envAlt 5 with currentMSecsSinceEpoch := 2 ^ 32 + 1234 } : Env).currentMSecsSinceEpoch
            : ℚ) / 1000) :=
  ⟨(info_timestamp_low32 1 { envAlt 5 with currentMSecsSinceEpoch := 2 ^ 32 + 1234 }
      (agentIn STATE_MISSION 0 0)).2.1
      (agentIn STATE_MISSION 1 1) _ (Or.inl rfl)
      (by simp [stateMission, agentIn, hoverDone, hoverQuotient_one, Dbl.le, wrapInt_one, nowOf,
            envAlt]; decide),
   (info_timestamp_low32 1 { envAlt 5 with currentMSecsSinceEpoch := 2 ^ 32 + 1234 }
      (agentIn STATE_MISSION 0 0)).2.2.1 (by decide) (by decide),
   (info_timestamp_low32 1 { envAlt 5 with currentMSecsSinceEpoch := 2 ^ 32 + 1234 }
      (agentIn STATE_MISSION 0 0)).2.2.2.2.1
      { envAlt 5 with currentMSecsSinceEpoch := 1234 } (-1) (by decide),
   (info_timestamp_low32 1 { envAlt 5 with currentMSecsSinceEpoch := 2 ^ 32 + 1234 }
      (agentIn STATE_MISSION 0 0)).2.2.2.2.2 (by decide)⟩

end UBAgent
